import Mathlib

/-!
Shallow embedding of the terrain synthesis and chunk-streaming engine of the
repository (React-Three-Fiber character controller).  JavaScript numbers are
modelled as exact rationals; the transcendental primitives the code calls
(the seeded simplex-noise generators produced by createNoise2D(alea(...)),
Math.pow, Math.sin, Math.sqrt) are abstract function parameters collected in
NoisePrims, so every definition below is a computable function of those
primitives.  Sources embedded:
  src/world/useTerrainControls.ts   (WorldGenerator)
  src/world/types.ts                (data model)
  src/world/sampleTerrainHeightAt.ts
  src/world/ChunkManager.ts         (unnamed part_003)
  src/world/TerrainChunk.tsx        (unnamed part_004)
  src/world/WorldManager.tsx        (streaming coordinator)
-/

/-- JavaScript Math.round: floor of x + 1/2 (halves round toward plus infinity). -/
def jsRound (q : ℚ) : ℤ := ⌊q + 1/2⌋

/-- JavaScript ToUint32 conversion of an integer value. -/
def toUint32 (n : ℤ) : ℕ := (n % 4294967296).toNat

/-- JavaScript ToInt32 conversion of an integer value. -/
def toInt32 (n : ℤ) : ℤ :=
  let u := toUint32 n
  if u < 2147483648 then (u : ℤ) else (u : ℤ) - 4294967296

/-- JavaScript bitwise xor `a ^ b` on integer-valued numbers: both operands are
converted to 32-bit integers and the result is read back as a signed int32. -/
def jsXor (a b : ℤ) : ℤ := toInt32 (Nat.xor (toUint32 a) (toUint32 b))

/-- Abstract numeric primitives of the JavaScript runtime used by the generator:
`noise2D s` is the deterministic 2D noise function produced by
`createNoise2D(alea(s))` for the seed string `s`; `mpow`, `msin`, `msqrt` stand
for Math.pow, Math.sin and Math.sqrt.  All are pure functions, which is exactly
what the determinism arguments below rest on. -/
structure NoisePrims where
  noise2D : String → ℚ → ℚ → ℚ
  mpow : ℚ → ℚ → ℚ
  msin : ℚ → ℚ
  msqrt : ℚ → ℚ

/-- Facts about the real primitives that the bound proofs use: simplex noise
values lie in [-1, 1], and Math.pow maps a base in [0, 1] with exponent at
least 1 into [0, 1]. -/
structure NoisePrims.Admissible (P : NoisePrims) : Prop where
  noise_bounded : ∀ s x z, |P.noise2D s x z| ≤ 1
  pow_unit : ∀ b e : ℚ, 0 ≤ b → b ≤ 1 → 1 ≤ e → 0 ≤ P.mpow b e ∧ P.mpow b e ≤ 1

/-- WorldGenerationSettings from src/world/types.ts: the immutable-per-generation
configuration record. -/
structure WorldGenerationSettings where
  seed : String
  chunkSize : ℚ
  meshResolution : ℕ
  waterLevel : ℚ
  continentScale : ℚ
  continentAmplitude : ℚ
  mountainScale : ℚ
  mountainAmplitude : ℚ
  mountainSharpness : ℚ
  detailScale : ℚ
  detailAmplitude : ℚ
  warpScale : ℚ
  warpStrength : ℚ
  renderDistance : ℕ
deriving DecidableEq

/-- ChunkCoordinate from src/world/types.ts: an integer pair addressing a chunk.
The source keys maps by the string `x,z`; that key is in bijection with the
pair, so the pair itself is used as the key here. -/
structure ChunkCoordinate where
  x : ℤ
  z : ℤ
deriving DecidableEq

/-- Cuboid scatter placement entry of TerrainData. -/
structure Cube where
  x : ℚ
  y : ℚ
  z : ℚ
  size : ℚ
deriving DecidableEq

/-- Sphere scatter placement entry of TerrainData. -/
structure Ball where
  x : ℚ
  y : ℚ
  z : ℚ
  radius : ℚ
deriving DecidableEq

/-- TerrainData from src/world/types.ts.  The typed arrays are modelled as
lists of exact rationals / naturals. -/
structure TerrainData where
  vertices : List ℚ
  indices : List ℕ
  normals : List ℚ
  heights : List ℚ
  cubes : List Cube
  balls : List Ball
deriving DecidableEq

/-- WorldGenerator from src/world/useTerrainControls.ts.  The constructor calls
initializeNoiseGenerators, which fills the twelve per-layer noise fields from
the seed; `WorldGenerator.init` below performs exactly that.  The Math
primitives are carried alongside. -/
structure WorldGenerator where
  prims : NoisePrims
  settings : WorldGenerationSettings
  continentNoise : ℚ → ℚ → ℚ
  mountainNoise : ℚ → ℚ → ℚ
  hillNoise : ℚ → ℚ → ℚ
  detailNoise : ℚ → ℚ → ℚ
  warpNoiseX : ℚ → ℚ → ℚ
  warpNoiseZ : ℚ → ℚ → ℚ
  ridgeNoise : ℚ → ℚ → ℚ
  valleyNoise : ℚ → ℚ → ℚ
  erosionNoise : ℚ → ℚ → ℚ
  underwaterNoise : ℚ → ℚ → ℚ
  plainsNoise : ℚ → ℚ → ℚ
  gentleNoise : ℚ → ℚ → ℚ

/-- Constructor plus initializeNoiseGenerators (useTerrainControls.ts lines
49-68): each layer generator is created from the seed with a layer-specific
suffix. -/
def WorldGenerator.init (P : NoisePrims) (s : WorldGenerationSettings) : WorldGenerator where
  prims := P
  settings := s
  continentNoise := P.noise2D (s.seed ++ "_continent")
  mountainNoise := P.noise2D (s.seed ++ "_mountain")
  hillNoise := P.noise2D (s.seed ++ "_hill")
  detailNoise := P.noise2D (s.seed ++ "_detail")
  warpNoiseX := P.noise2D (s.seed ++ "_warpX")
  warpNoiseZ := P.noise2D (s.seed ++ "_warpZ")
  ridgeNoise := P.noise2D (s.seed ++ "_ridge")
  valleyNoise := P.noise2D (s.seed ++ "_valley")
  erosionNoise := P.noise2D (s.seed ++ "_erosion")
  underwaterNoise := P.noise2D (s.seed ++ "_underwater")
  plainsNoise := P.noise2D (s.seed ++ "_plains")
  gentleNoise := P.noise2D (s.seed ++ "_gentle")

/-- Loop body state of WorldGenerator.fractal (lines 80-90): arguments after
the octave count are value, currentAmplitude, currentScale, maxValue; the
result is the final (value, maxValue) pair. -/
def fractalGo (noiseFunc : ℚ → ℚ → ℚ) (x z persistence lacunarity : ℚ) :
    ℕ → ℚ → ℚ → ℚ → ℚ → ℚ × ℚ
  | 0, value, _, _, maxValue => (value, maxValue)
  | n + 1, value, currentAmplitude, currentScale, maxValue =>
      fractalGo noiseFunc x z persistence lacunarity n
        (value + noiseFunc (x * currentScale) (z * currentScale) * currentAmplitude)
        (currentAmplitude * persistence)
        (currentScale * lacunarity)
        (maxValue + currentAmplitude)

/-- WorldGenerator.fractal (lines 70-92): multi-octave sum divided by the
accumulated amplitude.  Note the division is by the accumulated amplitude
including the amplitude argument, so the amplitude argument cancels. -/
def WorldGenerator.fractal (x z : ℚ) (noiseFunc : ℚ → ℚ → ℚ) (octaves : ℕ)
    (scale amplitude persistence lacunarity : ℚ) : ℚ :=
  let r := fractalGo noiseFunc x z persistence lacunarity octaves 0 amplitude scale 0
  r.1 / r.2

/-- WorldGenerator.ridged (lines 94-105): `pow(1 - |n|, sharpness) * amplitude`. -/
def WorldGenerator.ridged (g : WorldGenerator) (x z : ℚ) (noiseFunc : ℚ → ℚ → ℚ)
    (scale amplitude sharpness : ℚ) : ℚ :=
  let n := noiseFunc (x * scale) (z * scale)
  let rid := 1 - |n|
  g.prims.mpow rid sharpness * amplitude

/-- WorldGenerator.billow (lines 107-116): `|n| * amplitude`. -/
def WorldGenerator.billow (x z : ℚ) (noiseFunc : ℚ → ℚ → ℚ)
    (scale amplitude : ℚ) : ℚ :=
  |noiseFunc (x * scale) (z * scale)| * amplitude

/-- WorldGenerator.warp (lines 118-126): perturbs the sample position by two
3-octave fractal offsets. -/
def WorldGenerator.warp (g : WorldGenerator) (x z : ℚ) : ℚ × ℚ :=
  let warpStrength := g.settings.warpStrength
  let warpScale := g.settings.warpScale
  let offsetX := WorldGenerator.fractal x z g.warpNoiseX 3 warpScale (warpStrength * 0.8) 0.5 2.1
  let offsetZ := WorldGenerator.fractal x z g.warpNoiseZ 3 warpScale (warpStrength * 0.8) 0.5 2.1
  (x + offsetX, z + offsetZ)

/-- WorldGenerator.smootherstep (lines 128-131): quintic smoothstep of the
clamped normalized parameter. -/
def smootherstep (a b t : ℚ) : ℚ :=
  let x := max 0 (min 1 ((t - a) / (b - a)))
  x * x * x * (x * (x * 6 - 15) + 10)

/-- WorldGenerator.getHeightAt (lines 133-216), transcribed layer by layer. -/
def WorldGenerator.getHeightAt (g : WorldGenerator) (worldX worldZ : ℚ) : ℚ :=
  let w := g.warp worldX worldZ
  let wx := w.1
  let wz := w.2
  -- 1. Continental base
  let continentScale := g.settings.continentScale
  let continentAmp := g.settings.continentAmplitude * 1.5
  let continent := WorldGenerator.fractal wx wz g.continentNoise 6 continentScale continentAmp 0.55 2.2
  -- 2. Underwater terrain
  let underwaterBase := WorldGenerator.fractal wx wz g.underwaterNoise 5 0.003 (-35) 0.6 2.1
  let underwaterRidges := g.ridged wx wz g.underwaterNoise 0.008 (-20) 1.2
  let underwaterDetail := WorldGenerator.fractal wx wz g.detailNoise 4 0.025 (-12) 0.5 2.0
  let underwaterCanyons := WorldGenerator.billow wx wz g.valleyNoise 0.004 (-25)
  let combinedUnderwater := underwaterBase + underwaterRidges + underwaterDetail + underwaterCanyons
  let underwaterMask := smootherstep 0.2 (-0.5) continent
  let underwaterTerrain := combinedUnderwater * underwaterMask
  -- 3. Mountains
  let mountainScale := g.settings.mountainScale
  let mountainAmp := g.settings.mountainAmplitude * 3.0
  let primaryMountains := g.ridged wx wz g.mountainNoise mountainScale mountainAmp 2.0
  let secondaryRidges := g.ridged (wx + 100) (wz + 50) g.ridgeNoise (mountainScale * 1.3) (mountainAmp * 0.4) 1.6
  let tertiaryRidges := g.ridged (wx - 50) (wz + 150) g.mountainNoise (mountainScale * 0.7) (mountainAmp * 0.6) 1.4
  let erosion := WorldGenerator.fractal wx wz g.erosionNoise 5 (mountainScale * 4) 18 0.45 2.1
  let microErosion := WorldGenerator.fractal wx wz g.detailNoise 3 (mountainScale * 8) 8 0.35 2.5
  let combinedMountains := primaryMountains + secondaryRidges + tertiaryRidges - erosion - microErosion
  let mountainMask := smootherstep (-0.1) 0.6 continent
  -- 4. Coastal flattening
  let distanceFromWater := max 0 (continent + 0.2)
  let coastalFlattening := smootherstep 0.4 0 distanceFromWater * (-6)
  -- 5. Plains layer
  let plainsBase := WorldGenerator.fractal wx wz g.plainsNoise 4 0.004 8 0.6 2.0
  let gentleUndulation := WorldGenerator.fractal wx wz g.gentleNoise 3 0.008 4 0.5 2.2
  let plainsLayer := (plainsBase + gentleUndulation) * 0.9
  -- 6. Valleys
  let valleyBase := WorldGenerator.billow wx wz g.valleyNoise 0.006 (-18)
  let riverValleys := WorldGenerator.billow (wx + 200) (wz - 100) g.valleyNoise 0.015 (-12)
  let combinedValleys := valleyBase + riverValleys
  let valleyMask := smootherstep (-0.2) 0.4 continent * smootherstep 0 15 |combinedMountains * mountainMask|
  -- 7. Hills
  let largeHills := WorldGenerator.fractal wx wz g.hillNoise 4 0.006 25 0.5 2.1
  let mediumHills := WorldGenerator.fractal (wx + 75) (wz - 25) g.hillNoise 3 0.012 15 0.6 2.0
  let rollingHills := WorldGenerator.fractal (wx - 30) (wz + 80) g.detailNoise 2 0.025 8 0.5 2.2
  let combinedHills := largeHills + mediumHills + rollingHills
  let hillMask := smootherstep (-0.4) 0.3 continent
  -- 8. Surface smoothing
  let smoothingLayer := WorldGenerator.fractal wx wz g.gentleNoise 6 0.02 3.5 0.4 2.1
  -- 9. Surface details
  let detailScale := g.settings.detailScale
  let detailAmp := g.settings.detailAmplitude * 1.2
  let surfaceDetails := WorldGenerator.fractal wx wz g.detailNoise 5 detailScale detailAmp 0.45 2.4
  let microDetails := WorldGenerator.fractal wx wz g.detailNoise 3 (detailScale * 3) (detailAmp * 0.3) 0.4 2.6
  -- 10. Plateaus
  let plateauBase := WorldGenerator.fractal wx wz g.continentNoise 3 0.004 18 0.7 2.0
  let plateauMask := smootherstep 0.3 0.7 continent
  let plateaus := max 0 plateauBase * plateauMask
  -- Combine everything
  g.settings.waterLevel + continent + underwaterTerrain + coastalFlattening
    + combinedMountains * mountainMask + combinedValleys * valleyMask
    + combinedHills * hillMask + plainsLayer + plateaus + smoothingLayer
    + surfaceDetails + microDetails

/-- Height sample of generateChunk's border-inclusive height map
(useTerrainControls.ts lines 234-246): the array cell `heightMap[z+2][x+2]`
holds exactly `getHeightAt(worldX + (x/meshResolution)*chunkSize,
worldZ + (z/meshResolution)*chunkSize)`; the write-once array is represented
by this defining function. -/
def WorldGenerator.heightAtLocal (g : WorldGenerator) (coordinate : ChunkCoordinate)
    (x z : ℤ) : ℚ :=
  let worldX := (coordinate.x : ℚ) * g.settings.chunkSize
  let worldZ := (coordinate.z : ℚ) * g.settings.chunkSize
  g.getHeightAt (worldX + ((x : ℚ) / (g.settings.meshResolution : ℚ)) * g.settings.chunkSize)
    (worldZ + ((z : ℚ) / (g.settings.meshResolution : ℚ)) * g.settings.chunkSize)

/-- The seededRandom helper defined inside generateChunk (lines 296-299):
`frac(Math.sin(seed) * 10000)`. -/
def seededRandom (msin : ℚ → ℚ) (seed : ℚ) : ℚ :=
  let x := msin seed * 10000
  x - (⌊x⌋ : ℚ)

/-- The per-chunk scatter seed (line 301):
`coordinate.x * 73856093 ^ coordinate.z * 19349663` with JavaScript int32
xor semantics.  It depends on the chunk coordinate only. -/
def scatterPrngSeed (coordinate : ChunkCoordinate) : ℤ :=
  jsXor (coordinate.x * 73856093) (coordinate.z * 19349663)

/-- Candidate position (rx, rz) of scatter iteration i (lines 304-305).  Its
arguments show what the candidate depends on: Math.sin, the chunk edge length
and the chunk coordinate — not the settings seed. -/
def scatterCandidate (msin : ℚ → ℚ) (chunkSize : ℚ) (coordinate : ChunkCoordinate)
    (i : ℕ) : ℚ × ℚ :=
  let prng : ℚ := (scatterPrngSeed coordinate : ℚ)
  (5 + (⌊seededRandom msin (prng + i * 10) * (chunkSize - 10)⌋ : ℚ),
   5 + (⌊seededRandom msin (prng + i * 10 + 1) * (chunkSize - 10)⌋ : ℚ))

/-- Grid cell of a candidate position (lines 306-307). -/
def scatterGrid (chunkSize : ℚ) (meshResolution : ℕ) (r : ℚ × ℚ) : ℤ × ℤ :=
  (⌊r.1 / chunkSize * (meshResolution : ℚ)⌋, ⌊r.2 / chunkSize * (meshResolution : ℚ)⌋)

/-- One iteration i of the scatter-object loop of generateChunk (lines
303-321), pushing onto the accumulated (cubes, balls) lists. -/
def scatterStep (g : WorldGenerator) (coordinate : ChunkCoordinate)
    (hmap : ℤ → ℤ → ℚ) (i : ℕ) (acc : List Cube × List Ball) :
    List Cube × List Ball :=
  let s := g.settings
  let prng : ℚ := (scatterPrngSeed coordinate : ℚ)
  let rc := scatterCandidate g.prims.msin s.chunkSize coordinate i
  let gr := scatterGrid s.chunkSize s.meshResolution rc
  let terrainHeight := hmap gr.1 gr.2
  if s.waterLevel + 3 < terrainHeight then
    let objectRandom := seededRandom g.prims.msin (prng + i * 10 + 2)
    if 0.5 < objectRandom then
      let size := 0.6 + seededRandom g.prims.msin (prng + i * 10 + 3) * 2.8
      (acc.1 ++ [{ x := rc.1, y := terrainHeight + size * 0.5, z := rc.2, size := size }], acc.2)
    else if 0.3 < objectRandom then
      let radius := 0.3 + seededRandom g.prims.msin (prng + i * 10 + 4) * 0.8
      (acc.1, acc.2 ++ [{ x := rc.1, y := terrainHeight + radius + 0.5, z := rc.2, radius := radius }])
    else acc
  else acc

/-- Cube contribution of scatter iteration i, phrased per the spec: an accepted
candidate (terrain height above waterLevel + 3) whose second draw exceeds 0.5
yields one cube of randomized size. -/
def cubeAt (g : WorldGenerator) (coordinate : ChunkCoordinate)
    (hmap : ℤ → ℤ → ℚ) (i : ℕ) : Option Cube :=
  let s := g.settings
  let prng : ℚ := (scatterPrngSeed coordinate : ℚ)
  let rc := scatterCandidate g.prims.msin s.chunkSize coordinate i
  let gr := scatterGrid s.chunkSize s.meshResolution rc
  let terrainHeight := hmap gr.1 gr.2
  let objectRandom := seededRandom g.prims.msin (prng + i * 10 + 2)
  if s.waterLevel + 3 < terrainHeight ∧ 0.5 < objectRandom then
    let size := 0.6 + seededRandom g.prims.msin (prng + i * 10 + 3) * 2.8
    some { x := rc.1, y := terrainHeight + size * 0.5, z := rc.2, size := size }
  else none

/-- Ball contribution of scatter iteration i, phrased per the spec: an accepted
candidate whose second draw lies in (0.3, 0.5] yields one ball of randomized
radius. -/
def ballAt (g : WorldGenerator) (coordinate : ChunkCoordinate)
    (hmap : ℤ → ℤ → ℚ) (i : ℕ) : Option Ball :=
  let s := g.settings
  let prng : ℚ := (scatterPrngSeed coordinate : ℚ)
  let rc := scatterCandidate g.prims.msin s.chunkSize coordinate i
  let gr := scatterGrid s.chunkSize s.meshResolution rc
  let terrainHeight := hmap gr.1 gr.2
  let objectRandom := seededRandom g.prims.msin (prng + i * 10 + 2)
  if s.waterLevel + 3 < terrainHeight ∧ ¬ 0.5 < objectRandom ∧ 0.3 < objectRandom then
    let radius := 0.3 + seededRandom g.prims.msin (prng + i * 10 + 4) * 0.8
    some { x := rc.1, y := terrainHeight + radius + 0.5, z := rc.2, radius := radius }
  else none

/-- The scatter-object loop of generateChunk: 8 candidates, i = 0..7. -/
def scatterObjects (g : WorldGenerator) (coordinate : ChunkCoordinate)
    (hmap : ℤ → ℤ → ℚ) : List Cube × List Ball :=
  (List.range 8).foldl (fun acc i => scatterStep g coordinate hmap i acc) ([], [])

/-- Row-major double loop: element (i, j) of an n x m grid, i outer, j inner,
as a flat list. -/
def gridList {α : Type} (n m : ℕ) (f : ℕ → ℕ → α) : List α :=
  (List.range n).flatMap fun i => (List.range m).map fun j => f i j

/-- WorldGenerator.generateChunk (lines 218-331).  The flat arrays are built in
the same row-major traversal order as the source loops; the border-inclusive
height map is represented by `heightAtLocal`. -/
def WorldGenerator.generateChunk (g : WorldGenerator) (coordinate : ChunkCoordinate) :
    TerrainData :=
  let s := g.settings
  let res := s.meshResolution + 1
  let hm := fun (x z : ℤ) => g.heightAtLocal coordinate x z
  let heights := gridList res res fun z x => hm (x : ℤ) (z : ℤ)
  let vertices := (List.range res).flatMap fun (z : ℕ) =>
    (List.range res).flatMap fun (x : ℕ) =>
      [((x : ℚ) / (s.meshResolution : ℚ)) * s.chunkSize,
       hm (x : ℤ) (z : ℤ),
       ((z : ℚ) / (s.meshResolution : ℚ)) * s.chunkSize]
  let normals := (List.range res).flatMap fun (z : ℕ) =>
    (List.range res).flatMap fun (x : ℕ) =>
      let stepSize := s.chunkSize / (s.meshResolution : ℚ)
      let hL := hm ((x : ℤ) - 1) (z : ℤ)
      let hR := hm ((x : ℤ) + 1) (z : ℤ)
      let hD := hm (x : ℤ) ((z : ℤ) - 1)
      let hU := hm (x : ℤ) ((z : ℤ) + 1)
      let nx := (hL - hR) / (2 * stepSize)
      let ny : ℚ := 1
      let nz := (hD - hU) / (2 * stepSize)
      let len := g.prims.msqrt (nx * nx + ny * ny + nz * nz)
      [nx / len, ny / len, nz / len]
  let indices := (List.range s.meshResolution).flatMap fun z =>
    (List.range s.meshResolution).flatMap fun x =>
      let topLeft := z * res + x
      let topRight := topLeft + 1
      let bottomLeft := (z + 1) * res + x
      let bottomRight := bottomLeft + 1
      [topLeft, bottomLeft, topRight, topRight, bottomLeft, bottomRight]
  let scatter := scatterObjects g coordinate hm
  { vertices := vertices, indices := indices, normals := normals,
    heights := heights, cubes := scatter.1, balls := scatter.2 }

/-- Vector3 restricted to the fields the embedded code reads. -/
structure Vec3 where
  x : ℚ
  y : ℚ
  z : ℚ
deriving DecidableEq

/-- The slice of a three.js Mesh that sampleTerrainHeightAt reads:
`mesh.geometry.boundingBox?.max.x` (absent bounding box falls back to 1). -/
structure MeshInfo where
  boundingBoxMaxX : Option ℚ
deriving DecidableEq

/-- WorldChunk from src/world/types.ts. -/
structure WorldChunk where
  coordinate : ChunkCoordinate
  position : Vec3
  isLoaded : Bool
  isVisible : Bool
  mesh : Option MeshInfo
  needsUpdate : Bool
deriving DecidableEq

/-- Resolution recovered by sampleTerrainHeightAt (line 14):
`Math.round(Math.sqrt(vertices.length / 3))`.  For the real square root this
round equals `(Nat.sqrt (12 * len) + 3) / 6`: with m = 12*len,
round(sqrt(len/3)) = floor((sqrt m + 3)/6), and the quotient crosses an
integer k exactly when m reaches the perfect square (6k-3)^2, so the real
floor agrees with the integer-sqrt form. -/
def resOf (len : ℕ) : ℕ := (Nat.sqrt (12 * len) + 3) / 6

/-- Clamp of a rounded grid offset into [0, gridSize]:
`Math.max(0, Math.min(gridSize, Math.round(q)))` (lines 26-27). -/
def clampIndex (gridSize : ℤ) (q : ℚ) : ℤ :=
  max 0 (min gridSize (jsRound q))

/-- The clamped nearest-grid index pair computed by sampleTerrainHeightAt
(lines 17-28), returned as `normZ * res + normX`. -/
def sampleGridIndex (chunk : WorldChunk) (len : ℕ) (worldX worldZ : ℚ) : ℤ :=
  let res := resOf len
  let localX := worldX - chunk.position.x
  let localZ := worldZ - chunk.position.z
  let gridSize : ℤ := (res : ℤ) - 1
  let step : ℚ := match chunk.mesh with
    | some m => (m.boundingBoxMaxX.getD 1) / ((gridSize : ℚ))
    | none => 1
  let normX := clampIndex gridSize (localX / (step * (gridSize : ℚ)) * (gridSize : ℚ))
  let normZ := clampIndex gridSize (localZ / (step * (gridSize : ℚ)) * (gridSize : ℚ))
  normZ * (res : ℤ) + normX

/-- sampleTerrainHeightAt from src/world/sampleTerrainHeightAt.ts. -/
def sampleTerrainHeightAt (chunk : WorldChunk) (terrainData : TerrainData)
    (worldX worldZ : ℚ) : Option ℚ :=
  let vertices := terrainData.vertices
  let res := resOf vertices.length
  if res < 2 then none
  else
    let idx := sampleGridIndex chunk vertices.length worldX worldZ
    if idx * 3 + 1 < (vertices.length : ℤ) then
      some (vertices.getD (idx * 3 + 1).toNat 0)
    else none

/-- Association-list model of a JavaScript Map keyed by chunk coordinate
(the source key string `x,z` is in bijection with the coordinate). -/
def mapHas {V : Type} (m : List (ChunkCoordinate × V)) (k : ChunkCoordinate) : Bool :=
  m.any fun e => decide (e.1 = k)

/-- Map.get: first (unique) entry with the key. -/
def mapGet {V : Type} (m : List (ChunkCoordinate × V)) (k : ChunkCoordinate) : Option V :=
  (m.find? fun e => decide (e.1 = k)).map Prod.snd

/-- Map.set: replaces an existing entry in place, otherwise appends. -/
def mapSet {V : Type} (m : List (ChunkCoordinate × V)) (k : ChunkCoordinate) (v : V) :
    List (ChunkCoordinate × V) :=
  if mapHas m k then m.map fun e => if e.1 = k then (k, v) else e
  else m ++ [(k, v)]

/-- Map.delete: removes the entry with the key. -/
def mapDelete {V : Type} (m : List (ChunkCoordinate × V)) (k : ChunkCoordinate) :
    List (ChunkCoordinate × V) :=
  m.filter fun e => decide (e.1 ≠ k)

/-- ChunkManager state (unnamed part_003 lines 197-211): settings plus the
worldState record (playerChunk, loadedChunks table, visibleChunks set). -/
structure ChunkManagerState where
  settings : WorldGenerationSettings
  playerChunk : ChunkCoordinate
  loadedChunks : List (ChunkCoordinate × WorldChunk)
  visibleChunks : List ChunkCoordinate

/-- ChunkManager constructor: playerChunk (0,0), empty tables. -/
def ChunkManager.mk (settings : WorldGenerationSettings) : ChunkManagerState where
  settings := settings
  playerChunk := ⟨0, 0⟩
  loadedChunks := []
  visibleChunks := []

/-- ChunkManager.worldToChunk (lines 217-222): floor-division of the world
position by the chunk edge length. -/
def ChunkManager.worldToChunk (settings : WorldGenerationSettings) (worldPos : Vec3) :
    ChunkCoordinate :=
  ⟨⌊worldPos.x / settings.chunkSize⌋, ⌊worldPos.z / settings.chunkSize⌋⟩

/-- ChunkManager.chunkToWorld (lines 224-230). -/
def ChunkManager.chunkToWorld (settings : WorldGenerationSettings) (coord : ChunkCoordinate) :
    Vec3 :=
  ⟨(coord.x : ℚ) * settings.chunkSize, 0, (coord.z : ℚ) * settings.chunkSize⟩

/-- ChunkManager.getRequiredChunks (lines 232-243): the inclusive square of
radius floor(renderDistance / 2) around the player chunk, x-major as in the
nested source loops. -/
def ChunkManager.getRequiredChunks (settings : WorldGenerationSettings)
    (playerChunk : ChunkCoordinate) : List ChunkCoordinate :=
  let radius := settings.renderDistance / 2
  gridList (2 * radius + 1) (2 * radius + 1) fun i j =>
    ⟨playerChunk.x - (radius : ℤ) + (i : ℤ), playerChunk.z - (radius : ℤ) + (j : ℤ)⟩

/-- Result record of ChunkManager.updatePlayerPosition.  chunksToUnload holds
map keys; the coordinate stands for the source's `x,z` string. -/
structure UpdateResult where
  chunksToLoad : List ChunkCoordinate
  chunksToUnload : List ChunkCoordinate
  playerChunkChanged : Bool

/-- ChunkManager.updatePlayerPosition (lines 245-280), returning the mutated
manager state together with the result record. -/
def ChunkManager.updatePlayerPosition (m : ChunkManagerState) (worldPosition : Vec3) :
    ChunkManagerState × UpdateResult :=
  let newPlayerChunk := ChunkManager.worldToChunk m.settings worldPosition
  let playerChunkChanged := decide (¬ (newPlayerChunk = m.playerChunk))
  let requiredChunks := ChunkManager.getRequiredChunks m.settings newPlayerChunk
  let chunksToLoad := requiredChunks.filter fun coord => ! mapHas m.loadedChunks coord
  let chunksToUnload := (m.loadedChunks.map Prod.fst).filter fun k =>
    decide (¬ (k ∈ requiredChunks))
  ({ m with playerChunk := newPlayerChunk, visibleChunks := requiredChunks },
   { chunksToLoad := chunksToLoad, chunksToUnload := chunksToUnload,
     playerChunkChanged := playerChunkChanged })

/-- ChunkManager.generateChunk (lines 282-298): registers a fresh WorldChunk
synchronously (isLoaded = false, isVisible = true, no mesh) and returns it. -/
def ChunkManager.generateChunk (m : ChunkManagerState) (coordinate : ChunkCoordinate) :
    ChunkManagerState × WorldChunk :=
  let position := ChunkManager.chunkToWorld m.settings coordinate
  let chunk : WorldChunk :=
    { coordinate := coordinate, position := position, isLoaded := false,
      isVisible := true, mesh := none, needsUpdate := true }
  ({ m with loadedChunks := mapSet m.loadedChunks coordinate chunk }, chunk)

/-- ChunkManager.getChunk (lines 300-303). -/
def ChunkManager.getChunk (m : ChunkManagerState) (coordinate : ChunkCoordinate) :
    Option WorldChunk :=
  mapGet m.loadedChunks coordinate

/-- ChunkManager.unloadChunk (lines 305-307). -/
def ChunkManager.unloadChunk (m : ChunkManagerState) (key : ChunkCoordinate) :
    ChunkManagerState :=
  { m with loadedChunks := mapDelete m.loadedChunks key }

/-- TerrainChunk's onLoaded useEffect (unnamed part_004 lines 155-161): when a
mesh ref is present and the chunk is not yet loaded, it mutates the chunk,
setting isLoaded and installing the mesh reference. -/
def TerrainChunk.onLoadedEffect (meshRefCurrent : MeshInfo) (chunk : WorldChunk) :
    WorldChunk :=
  if chunk.isLoaded then chunk
  else { chunk with isLoaded := true, mesh := some meshRefCurrent }

/-- Coordinator state of WorldManager.tsx: the ChunkManager ref plus the three
ref-held collections (chunkTerrainData map, loadingChunks set,
loadedChunkCoords set). -/
structure CoordinatorState where
  manager : ChunkManagerState
  chunkTerrainData : List (ChunkCoordinate × TerrainData)
  loadingChunks : List ChunkCoordinate
  loadedChunkCoords : List ChunkCoordinate

/-- Iteration of the chunksToLoad forEach (WorldManager.tsx lines 142-153): a
coordinate is requested (and added to loadingChunks) only when it is in
neither chunkTerrainData nor loadingChunks.  The accumulator carries
(loadingChunks, requested-so-far). -/
def loadGo (terrain : List (ChunkCoordinate × TerrainData)) :
    List ChunkCoordinate → List ChunkCoordinate × List ChunkCoordinate →
      List ChunkCoordinate × List ChunkCoordinate
  | [], acc => acc
  | coord :: rest, acc =>
      loadGo terrain rest
        (if ¬ mapHas terrain coord ∧ ¬ (coord ∈ acc.1) then
          (acc.1 ++ [coord], acc.2 ++ [coord])
        else acc)

/-- The chunksToLoad forEach, started from the current loadingChunks set and
an empty requested list. -/
def loadPass (terrain : List (ChunkCoordinate × TerrainData))
    (chunksToLoad : List ChunkCoordinate) (loading : List ChunkCoordinate) :
    List ChunkCoordinate × List ChunkCoordinate :=
  loadGo terrain chunksToLoad (loading, [])

/-- Iteration of the chunksToUnload forEach (WorldManager.tsx lines 155-160):
unloadChunk on the manager and deletion from all three ref collections. -/
def unloadGo : List ChunkCoordinate → CoordinatorState → CoordinatorState
  | [], s => s
  | key :: rest, s =>
      unloadGo rest
        { s with
          manager := ChunkManager.unloadChunk s.manager key,
          chunkTerrainData := mapDelete s.chunkTerrainData key,
          loadingChunks := s.loadingChunks.filter fun c => decide (c ≠ key),
          loadedChunkCoords := s.loadedChunkCoords.filter fun c => decide (c ≠ key) }

/-- The chunksToUnload forEach. -/
def unloadPass (st : CoordinatorState) (chunksToUnload : List ChunkCoordinate) :
    CoordinatorState :=
  unloadGo chunksToUnload st

/-- One useFrame pass of WorldManager (lines 137-163): updatePlayerPosition,
then the load pass (issuing requestChunk for the returned list) and the unload
pass.  Returns the new state and the list of coordinates for which
requestChunk was called this frame. -/
def frameStep (st : CoordinatorState) (playerPosition : Vec3) :
    CoordinatorState × List ChunkCoordinate :=
  let mu := ChunkManager.updatePlayerPosition st.manager playerPosition
  let lp := loadPass st.chunkTerrainData mu.2.chunksToLoad st.loadingChunks
  let st1 : CoordinatorState := { st with manager := mu.1, loadingChunks := lp.1 }
  (unloadPass st1 mu.2.chunksToUnload, lp.2)

/-- Continuation run when a requestChunk promise resolves (WorldManager.tsx
lines 146-151): install the TerrainData, clear the loading mark, and register
a WorldChunk via ChunkManager.generateChunk — unconditionally, with no check
that the coordinate is still required or resident. -/
def onTerrainResult (st : CoordinatorState) (coordinate : ChunkCoordinate)
    (terrain : TerrainData) : CoordinatorState :=
  { st with
    chunkTerrainData := mapSet st.chunkTerrainData coordinate terrain,
    loadingChunks := st.loadingChunks.filter fun c => decide (c ≠ coordinate),
    manager := (ChunkManager.generateChunk st.manager coordinate).1 }

/-- Concrete primitive instance for witnesses: all noise layers zero, Math.pow
one, Math.sin zero (all within the admissible ranges of the real functions). -/
def constPrims : NoisePrims where
  noise2D := fun _ _ _ => 0
  mpow := fun _ _ => 1
  msin := fun _ => 0
  msqrt := fun _ => 0

/-- Concrete primitive instance whose continent layer reads 1 and every other
layer 0 (used with the empty seed, so the continent layer key is
"_continent"). -/
def contPrims : NoisePrims where
  noise2D := fun s _ _ => if s = "_continent" then 1 else 0
  mpow := fun _ _ => 1
  msin := fun _ => 0
  msqrt := fun _ => 0

/-- Concrete settings with an even render distance (4). -/
def S0 : WorldGenerationSettings where
  seed := "test"
  chunkSize := 20
  meshResolution := 4
  waterLevel := 0
  continentScale := 1
  continentAmplitude := 1
  mountainScale := 1
  mountainAmplitude := 1
  mountainSharpness := 1.5
  detailScale := 1
  detailAmplitude := 1
  warpScale := 1
  warpStrength := 1
  renderDistance := 4

/-- Concrete settings with a large mountain amplitude (scatter acceptance). -/
def S6 : WorldGenerationSettings where
  seed := "w"
  chunkSize := 20
  meshResolution := 4
  waterLevel := 0
  continentScale := 1
  continentAmplitude := 1
  mountainScale := 1
  mountainAmplitude := 100
  mountainSharpness := 1.5
  detailScale := 1
  detailAmplitude := 1
  warpScale := 1
  warpStrength := 1
  renderDistance := 5

/-- Concrete settings with the empty seed and a mountain amplitude dwarfing
the other amplitude parameters. -/
def S8 : WorldGenerationSettings where
  seed := ""
  chunkSize := 20
  meshResolution := 4
  waterLevel := 0
  continentScale := 1
  continentAmplitude := 1
  mountainScale := 1
  mountainAmplitude := 100
  mountainSharpness := 1.5
  detailScale := 1
  detailAmplitude := 1
  warpScale := 1
  warpStrength := 1
  renderDistance := 5

/-- Concrete not-yet-loaded WorldChunk. -/
def chunk0 : WorldChunk where
  coordinate := ⟨0, 0⟩
  position := ⟨0, 0, 0⟩
  isLoaded := false
  isVisible := true
  mesh := none
  needsUpdate := true

/-- Concrete TerrainData with a 2 x 2 vertex grid (12 vertex components). -/
def td12 : TerrainData where
  vertices := [0, 10, 0, 1, 11, 0, 0, 12, 1, 1, 13, 1]
  indices := [0, 2, 1, 1, 2, 3]
  normals := []
  heights := [10, 11, 12, 13]
  cubes := []
  balls := []

/-- Empty TerrainData payload. -/
def emptyTD : TerrainData where
  vertices := []
  indices := []
  normals := []
  heights := []
  cubes := []
  balls := []

/-- Coordinator state in which every table is empty: in particular the
coordinate (5,5) is evicted / not resident. -/
def evictedState : CoordinatorState where
  manager := ChunkManager.mk S0
  chunkTerrainData := []
  loadingChunks := []
  loadedChunkCoords := []

/-- Coordinator state with coordinate (0,0) marked as currently loading. -/
def loadingState : CoordinatorState where
  manager := ChunkManager.mk S0
  chunkTerrainData := []
  loadingChunks := [⟨0, 0⟩]
  loadedChunkCoords := []

/-- World position at the origin. -/
def posZero : Vec3 := ⟨0, 0, 0⟩

/-- C1: for every fixed WorldGenerationSettings value and every
ChunkCoordinate, two independent evaluations of WorldGenerator.generateChunk,
each on a freshly constructed WorldGenerator seeded from those settings (with
the same deterministic runtime primitives), return identical TerrainData:
vertices, normals, indices and heights agree element for element, and the
cubes and balls scatter lists agree. -/
theorem WorldGenerator.generateChunk_deterministic (P : NoisePrims)
    (s₁ s₂ : WorldGenerationSettings) (h : s₁ = s₂) (c : ChunkCoordinate) :
    ((WorldGenerator.init P s₁).generateChunk c).vertices
        = ((WorldGenerator.init P s₂).generateChunk c).vertices ∧
    ((WorldGenerator.init P s₁).generateChunk c).normals
        = ((WorldGenerator.init P s₂).generateChunk c).normals ∧
    ((WorldGenerator.init P s₁).generateChunk c).indices
        = ((WorldGenerator.init P s₂).generateChunk c).indices ∧
    ((WorldGenerator.init P s₁).generateChunk c).heights
        = ((WorldGenerator.init P s₂).generateChunk c).heights ∧
    ((WorldGenerator.init P s₁).generateChunk c).cubes
        = ((WorldGenerator.init P s₂).generateChunk c).cubes ∧
    ((WorldGenerator.init P s₁).generateChunk c).balls
        = ((WorldGenerator.init P s₂).generateChunk c).balls := by
  subst h
  exact ⟨rfl, rfl, rfl, rfl, rfl, rfl⟩

/-- Witness for C1 at concrete primitives, settings and coordinate. -/
theorem generateChunk_deterministic_witness :
    ((WorldGenerator.init constPrims S0).generateChunk ⟨0, 0⟩).vertices
        = ((WorldGenerator.init constPrims S0).generateChunk ⟨0, 0⟩).vertices ∧
    ((WorldGenerator.init constPrims S0).generateChunk ⟨0, 0⟩).normals
        = ((WorldGenerator.init constPrims S0).generateChunk ⟨0, 0⟩).normals ∧
    ((WorldGenerator.init constPrims S0).generateChunk ⟨0, 0⟩).indices
        = ((WorldGenerator.init constPrims S0).generateChunk ⟨0, 0⟩).indices ∧
    ((WorldGenerator.init constPrims S0).generateChunk ⟨0, 0⟩).heights
        = ((WorldGenerator.init constPrims S0).generateChunk ⟨0, 0⟩).heights ∧
    ((WorldGenerator.init constPrims S0).generateChunk ⟨0, 0⟩).cubes
        = ((WorldGenerator.init constPrims S0).generateChunk ⟨0, 0⟩).cubes ∧
    ((WorldGenerator.init constPrims S0).generateChunk ⟨0, 0⟩).balls
        = ((WorldGenerator.init constPrims S0).generateChunk ⟨0, 0⟩).balls :=
  WorldGenerator.generateChunk_deterministic constPrims S0 S0 rfl ⟨0, 0⟩

/-- C9 counterexample: TerrainChunk's onLoaded effect, which runs outside
ChunkManager, changes a freshly registered (not yet loaded) WorldChunk, so the
claim that only ChunkManager.generateChunk and ChunkManager.unloadChunk mutate
a registered WorldChunk is false. -/
theorem onLoadedEffect_mutates_counterexample :
    TerrainChunk.onLoadedEffect ⟨some 1⟩ chunk0 ≠ chunk0 := by
  intro h
  have h2 := congrArg WorldChunk.isLoaded h
  simp [TerrainChunk.onLoadedEffect, chunk0] at h2

/-- C9 amended: besides ChunkManager.generateChunk and unloadChunk, exactly one
outside operation mutates a registered WorldChunk: TerrainChunk's onLoaded
effect.  It only sets isLoaded to true and installs the mesh reference on a
chunk that was not yet loaded; coordinate, position, isVisible and needsUpdate
are never changed, and an already-loaded chunk is left untouched. -/
theorem TerrainChunk.onLoadedEffect_spec (m : MeshInfo) (c : WorldChunk) :
    (TerrainChunk.onLoadedEffect m c).coordinate = c.coordinate ∧
    (TerrainChunk.onLoadedEffect m c).position = c.position ∧
    (TerrainChunk.onLoadedEffect m c).isVisible = c.isVisible ∧
    (TerrainChunk.onLoadedEffect m c).needsUpdate = c.needsUpdate ∧
    (c.isLoaded = true → TerrainChunk.onLoadedEffect m c = c) ∧
    (c.isLoaded = false → (TerrainChunk.onLoadedEffect m c).isLoaded = true ∧
        (TerrainChunk.onLoadedEffect m c).mesh = some m) := by
  unfold TerrainChunk.onLoadedEffect
  by_cases h : c.isLoaded <;> simp [h]

/-- Witness for C9's amended theorem at a concrete unloaded chunk. -/
theorem onLoadedEffect_spec_witness :
    (TerrainChunk.onLoadedEffect ⟨none⟩ chunk0).isLoaded = true ∧
    (TerrainChunk.onLoadedEffect ⟨none⟩ chunk0).mesh = some ⟨none⟩ :=
  (TerrainChunk.onLoadedEffect_spec ⟨none⟩ chunk0).2.2.2.2.2 rfl

/-- C4 (code bug in the source, acknowledged by the spec's design notes): when
a generation result arrives for a coordinate that has been evicted, the
continuation installs it anyway — the TerrainData is inserted into the
coordinator's terrain-data map and a WorldChunk is re-registered in the
resident table, instead of being dropped without side effects. -/
theorem onTerrainResult_installs_orphaned_result :
    mapHas (onTerrainResult evictedState ⟨5, 5⟩ emptyTD).chunkTerrainData ⟨5, 5⟩ = true ∧
    ChunkManager.getChunk (onTerrainResult evictedState ⟨5, 5⟩ emptyTD).manager ⟨5, 5⟩ ≠ none := by
  constructor
  · simp [onTerrainResult, evictedState, ChunkManager.mk, mapSet, mapHas]
  · simp [onTerrainResult, evictedState, ChunkManager.mk, ChunkManager.generateChunk,
      ChunkManager.getChunk, mapSet, mapHas, mapGet]

/-- Resolution recovery is exact on well-formed vertex arrays: a vertex array
of length 3*r*r yields resolution r. -/
theorem resOf_three_sq (r : ℕ) : resOf (3 * r * r) = r := by
  have h : 12 * (3 * r * r) = (6 * r) ^ 2 := by ring
  unfold resOf
  rw [h, Nat.sqrt_eq']
  omega

/-- Clamped grid offsets are nonnegative. -/
theorem clampIndex_nonneg (gridSize : ℤ) (q : ℚ) : 0 ≤ clampIndex gridSize q :=
  le_max_left 0 _

/-- Clamped grid offsets stay at or below gridSize when gridSize is
nonnegative. -/
theorem clampIndex_le (gridSize : ℤ) (q : ℚ) (h : 0 ≤ gridSize) :
    clampIndex gridSize q ≤ gridSize :=
  max_le h (min_le_left _ _)

/-- Combined bound for the flattened clamped index pair. -/
theorem clamp_pair_lt (res : ℤ) (qx qz : ℚ) (h : 1 ≤ res) :
    clampIndex (res - 1) qz * res + clampIndex (res - 1) qx < res * res := by
  have h1 := clampIndex_nonneg (res - 1) qx
  have h2 := clampIndex_nonneg (res - 1) qz
  have h3 := clampIndex_le (res - 1) qx (by omega)
  have h4 := clampIndex_le (res - 1) qz (by omega)
  nlinarith

/-- The clamped grid index is never negative. -/
theorem sampleGridIndex_nonneg (chunk : WorldChunk) (len : ℕ) (wx wz : ℚ) :
    0 ≤ sampleGridIndex chunk len wx wz := by
  simp only [sampleGridIndex]
  have h1 := clampIndex_nonneg ((resOf len : ℤ) - 1)
  have h2 : (0 : ℤ) ≤ (resOf len : ℤ) := Int.natCast_nonneg _
  exact add_nonneg (mul_nonneg (le_max_left 0 _) h2) (le_max_left 0 _)

/-- The clamped grid index stays below res * res whenever res is at least 1. -/
theorem sampleGridIndex_lt (chunk : WorldChunk) (len : ℕ) (wx wz : ℚ)
    (h : 1 ≤ resOf len) :
    sampleGridIndex chunk len wx wz < (resOf len : ℤ) * (resOf len : ℤ) := by
  simp only [sampleGridIndex]
  exact clamp_pair_lt (resOf len : ℤ) _ _ (by exact_mod_cast h)

/-- C7: sampleTerrainHeightAt is a total function into an optional height: it
returns none exactly when the recovered resolution is below 2 or the computed
flattened index falls outside the stored vertices array; otherwise it returns
the Y component of the nearest sampled grid vertex, taken at the clamped grid
index, which always lies within [0, res*res). -/
theorem sampleTerrainHeightAt_error_spec (chunk : WorldChunk) (td : TerrainData)
    (wx wz : ℚ) :
    (sampleTerrainHeightAt chunk td wx wz = none ↔
        (resOf td.vertices.length < 2 ∨
         (td.vertices.length : ℤ) ≤ sampleGridIndex chunk td.vertices.length wx wz * 3 + 1)) ∧
    (∀ y, sampleTerrainHeightAt chunk td wx wz = some y →
        y = td.vertices.getD (sampleGridIndex chunk td.vertices.length wx wz * 3 + 1).toNat 0 ∧
        0 ≤ sampleGridIndex chunk td.vertices.length wx wz ∧
        sampleGridIndex chunk td.vertices.length wx wz
            < (resOf td.vertices.length : ℤ) * (resOf td.vertices.length : ℤ)) := by
  simp only [sampleTerrainHeightAt]
  by_cases h1 : resOf td.vertices.length < 2
  · rw [if_pos h1]
    constructor
    · exact ⟨fun _ => Or.inl h1, fun _ => rfl⟩
    · intro y hy
      exact Option.noConfusion hy
  · rw [if_neg h1]
    by_cases h2 : sampleGridIndex chunk td.vertices.length wx wz * 3 + 1
        < (td.vertices.length : ℤ)
    · rw [if_pos h2]
      constructor
      · constructor
        · intro hsome
          exact Option.noConfusion hsome
        · intro hor
          rcases hor with hl | hr
          · exact absurd hl h1
          · omega
      · intro y hy
        refine ⟨(Option.some_inj.mp hy).symm, sampleGridIndex_nonneg _ _ _ _, ?_⟩
        exact sampleGridIndex_lt chunk td.vertices.length wx wz (by omega)
    · rw [if_neg h2]
      constructor
      · exact ⟨fun _ => Or.inr (by omega), fun _ => rfl⟩
      · intro y hy
        exact Option.noConfusion hy

/-- Witness for C7 at a concrete chunk, terrain data and sample position. -/
theorem sampleTerrainHeightAt_error_spec_witness :
    (10 : ℚ) = td12.vertices.getD
        (sampleGridIndex chunk0 td12.vertices.length 0 0 * 3 + 1).toNat 0 ∧
    0 ≤ sampleGridIndex chunk0 td12.vertices.length 0 0 ∧
    sampleGridIndex chunk0 td12.vertices.length 0 0
        < (resOf td12.vertices.length : ℤ) * (resOf td12.vertices.length : ℤ) :=
  (sampleTerrainHeightAt_error_spec chunk0 td12 0 0).2 10 (by
    have hres : resOf td12.vertices.length = 2 := by
      have : td12.vertices.length = 3 * 2 * 2 := rfl
      rw [this]
      exact resOf_three_sq 2
    have hidx : sampleGridIndex chunk0 td12.vertices.length 0 0 = 0 := by
      simp only [sampleGridIndex, hres, chunk0, clampIndex, jsRound]
      norm_num
    simp only [sampleTerrainHeightAt]
    rw [hres, hidx]
    norm_num
    simp [td12])

/-- C10: on any TerrainData whose vertices array has length 3*r*r with r at
least 2, sampleTerrainHeightAt always returns a height: the clamped index
satisfies idx*3+1 < vertices.length, so the out-of-bounds null branch is
unreachable and null could only arise from the resolution-below-2 check. -/
theorem sampleTerrainHeightAt_total_on_grid (chunk : WorldChunk) (td : TerrainData)
    (wx wz : ℚ) (r : ℕ) (hlen : td.vertices.length = 3 * r * r) (hr : 2 ≤ r) :
    ∃ y, sampleTerrainHeightAt chunk td wx wz = some y := by
  have hres : resOf td.vertices.length = r := by rw [hlen]; exact resOf_three_sq r
  have h1 : ¬ resOf td.vertices.length < 2 := by omega
  have hlt := sampleGridIndex_lt chunk td.vertices.length wx wz (by omega)
  have h2 : sampleGridIndex chunk td.vertices.length wx wz * 3 + 1
      < (td.vertices.length : ℤ) := by
    rw [hres] at hlt
    have hcast : (td.vertices.length : ℤ) = 3 * (r : ℤ) * (r : ℤ) := by
      rw [hlen]; push_cast; ring
    rw [hcast]
    linarith
  unfold sampleTerrainHeightAt
  simp [h1, h2]

/-- Witness for C10 at concrete data. -/
theorem sampleTerrainHeightAt_total_on_grid_witness :
    ∃ y, sampleTerrainHeightAt chunk0 td12 1 1 = some y :=
  sampleTerrainHeightAt_total_on_grid chunk0 td12 1 1 2 rfl (by norm_num)

/-- Length of a row-major grid built by nested range traversals. -/
theorem grid_length {α : Type} (f : ℕ → ℕ → α) (n m : ℕ) :
    (gridList n m f).length = n * m := by
  induction n with
  | zero => simp [gridList]
  | succ k ih =>
    unfold gridList at ih ⊢
    rw [List.range_succ, List.flatMap_append, List.length_append, ih,
      List.flatMap_singleton, List.length_map, List.length_range]
    ring

/-- Row-major indexing of a grid built by nested range traversals. -/
theorem grid_getElem {α : Type} (f : ℕ → ℕ → α) (n m i j : ℕ) (hi : i < n) (hj : j < m) :
    (gridList n m f)[i * m + j]? = some (f i j) := by
  induction n with
  | zero => omega
  | succ k ih =>
    have hlen := grid_length f k m
    unfold gridList at ih hlen ⊢
    rw [List.range_succ, List.flatMap_append, List.getElem?_append]
    by_cases hik : i < k
    · rw [if_pos (by rw [hlen]; nlinarith)]
      exact ih hik
    · have hk : i = k := by omega
      subst hk
      rw [if_neg (by rw [hlen]; omega), hlen, List.flatMap_singleton]
      have hsub : i * m + j - i * m = j := by omega
      rw [hsub, List.getElem?_map, List.getElem?_range hj]
      rfl

/-- C2: for every pair of adjacent chunks sharing an edge, the heights array
entries generateChunk computes along the shared border agree exactly.  For the
x-adjacent pair (cx, cz) and (cx+1, cz), the entry at local column
meshResolution of the first chunk in any row r equals the entry at local
column 0 of the second chunk in the same row; for the z-adjacent pair (cx, cz)
and (cx, cz+1), the entry at local row meshResolution of the first chunk in
any column r equals the entry at local row 0 of the second chunk in the same
column.  In each case both entries are getHeightAt evaluated at the identical
world coordinate, since the height function is a pure function of world
position (exact equality, so a fortiori within the 1e-5 tolerance of the spec
scenario). -/
theorem WorldGenerator.seam_continuity (P : NoisePrims) (s : WorldGenerationSettings)
    (hR : 0 < s.meshResolution) (c : ChunkCoordinate) (r : ℕ)
    (hr : r < s.meshResolution + 1) :
    (((WorldGenerator.init P s).generateChunk c).heights[r * (s.meshResolution + 1) + s.meshResolution]? =
      ((WorldGenerator.init P s).generateChunk ⟨c.x + 1, c.z⟩).heights[r * (s.meshResolution + 1)]?) ∧
    (((WorldGenerator.init P s).generateChunk c).heights[s.meshResolution * (s.meshResolution + 1) + r]? =
      ((WorldGenerator.init P s).generateChunk ⟨c.x, c.z + 1⟩).heights[r]?) := by
  have hRq : ((s.meshResolution : ℚ)) ≠ 0 := by
    exact_mod_cast hR.ne'
  have h1 : ((WorldGenerator.init P s).generateChunk c).heights =
      gridList (s.meshResolution + 1) (s.meshResolution + 1)
        (fun z x => (WorldGenerator.init P s).heightAtLocal c (x : ℤ) (z : ℤ)) := rfl
  constructor
  · have h2 : ((WorldGenerator.init P s).generateChunk ⟨c.x + 1, c.z⟩).heights =
        gridList (s.meshResolution + 1) (s.meshResolution + 1)
          (fun z x => (WorldGenerator.init P s).heightAtLocal ⟨c.x + 1, c.z⟩ (x : ℤ) (z : ℤ)) := rfl
    have hA := grid_getElem
      (fun z x => (WorldGenerator.init P s).heightAtLocal c (x : ℤ) (z : ℤ))
      (s.meshResolution + 1) (s.meshResolution + 1) r s.meshResolution hr (by omega)
    have hB := grid_getElem
      (fun z x => (WorldGenerator.init P s).heightAtLocal ⟨c.x + 1, c.z⟩ (x : ℤ) (z : ℤ))
      (s.meshResolution + 1) (s.meshResolution + 1) r 0 hr (by omega)
    rw [h1, h2, hA]
    conv_rhs => rw [show r * (s.meshResolution + 1) = r * (s.meshResolution + 1) + 0 from rfl]
    rw [hB]
    have key : (WorldGenerator.init P s).heightAtLocal c (s.meshResolution : ℤ) (r : ℤ) =
        (WorldGenerator.init P s).heightAtLocal ⟨c.x + 1, c.z⟩ ((0 : ℕ) : ℤ) (r : ℤ) := by
      unfold WorldGenerator.heightAtLocal
      simp only [WorldGenerator.init]
      congr 1
      push_cast
      rw [div_self hRq]
      ring
    show some ((WorldGenerator.init P s).heightAtLocal c (s.meshResolution : ℤ) (r : ℤ)) =
        some ((WorldGenerator.init P s).heightAtLocal ⟨c.x + 1, c.z⟩ ((0 : ℕ) : ℤ) (r : ℤ))
    exact congrArg some key
  · have h3 : ((WorldGenerator.init P s).generateChunk ⟨c.x, c.z + 1⟩).heights =
        gridList (s.meshResolution + 1) (s.meshResolution + 1)
          (fun z x => (WorldGenerator.init P s).heightAtLocal ⟨c.x, c.z + 1⟩ (x : ℤ) (z : ℤ)) := rfl
    have hA := grid_getElem
      (fun z x => (WorldGenerator.init P s).heightAtLocal c (x : ℤ) (z : ℤ))
      (s.meshResolution + 1) (s.meshResolution + 1) s.meshResolution r (by omega) hr
    have hB := grid_getElem
      (fun z x => (WorldGenerator.init P s).heightAtLocal ⟨c.x, c.z + 1⟩ (x : ℤ) (z : ℤ))
      (s.meshResolution + 1) (s.meshResolution + 1) 0 r (by omega) hr
    rw [Nat.zero_mul, Nat.zero_add] at hB
    rw [h1, h3, hA, hB]
    have key : (WorldGenerator.init P s).heightAtLocal c (r : ℤ) (s.meshResolution : ℤ) =
        (WorldGenerator.init P s).heightAtLocal ⟨c.x, c.z + 1⟩ (r : ℤ) ((0 : ℕ) : ℤ) := by
      unfold WorldGenerator.heightAtLocal
      simp only [WorldGenerator.init]
      congr 1
      push_cast
      rw [div_self hRq]
      ring
    show some ((WorldGenerator.init P s).heightAtLocal c (r : ℤ) (s.meshResolution : ℤ)) =
        some ((WorldGenerator.init P s).heightAtLocal ⟨c.x, c.z + 1⟩ (r : ℤ) ((0 : ℕ) : ℤ))
    exact congrArg some key

/-- Witness for C2 at concrete primitives, settings, coordinate and row. -/
theorem seam_continuity_witness :
    (((WorldGenerator.init constPrims S0).generateChunk ⟨0, 0⟩).heights[0 * (S0.meshResolution + 1) + S0.meshResolution]? =
      ((WorldGenerator.init constPrims S0).generateChunk ⟨0 + 1, 0⟩).heights[0 * (S0.meshResolution + 1)]?) ∧
    (((WorldGenerator.init constPrims S0).generateChunk ⟨0, 0⟩).heights[S0.meshResolution * (S0.meshResolution + 1) + 0]? =
      ((WorldGenerator.init constPrims S0).generateChunk ⟨0, 0 + 1⟩).heights[0]?) :=
  WorldGenerator.seam_continuity constPrims S0 (by norm_num [S0]) ⟨0, 0⟩ 0 (by omega)

/-- Membership in the required-chunk square: exactly the inclusive square of
radius floor(renderDistance / 2) centered on the player chunk. -/
theorem mem_getRequiredChunks (s : WorldGenerationSettings) (pc c : ChunkCoordinate) :
    c ∈ ChunkManager.getRequiredChunks s pc ↔
      (pc.x - (s.renderDistance / 2 : ℕ) ≤ c.x ∧
       c.x ≤ pc.x + (s.renderDistance / 2 : ℕ) ∧
       pc.z - (s.renderDistance / 2 : ℕ) ≤ c.z ∧
       c.z ≤ pc.z + (s.renderDistance / 2 : ℕ)) := by
  obtain ⟨cx, cz⟩ := c
  unfold ChunkManager.getRequiredChunks gridList
  simp only [List.mem_flatMap, List.mem_map, List.mem_range, ChunkCoordinate.mk.injEq]
  constructor
  · rintro ⟨i, hi, j, hj, hx, hz⟩
    omega
  · rintro ⟨h1, h2, h3, h4⟩
    exact ⟨(cx - (pc.x - (s.renderDistance / 2 : ℕ))).toNat, by omega,
      (cz - (pc.z - (s.renderDistance / 2 : ℕ))).toNat, by omega, by omega, by omega⟩

/-- C3 amended: the required set of updatePlayerPosition is the inclusive
square of radius floor(renderDistance / 2) centered exactly on the player
chunk — side length 2*floor(R/2)+1, which equals R only for odd R (for even R
it is R+1, not R).  chunksToLoad is exactly the required coordinates with no
resident entry, and chunksToUnload is exactly the resident keys outside the
required square. -/
theorem ChunkManager.updatePlayerPosition_spec (m : ChunkManagerState) (p : Vec3) :
    (∀ c : ChunkCoordinate,
        c ∈ ChunkManager.getRequiredChunks m.settings (ChunkManager.worldToChunk m.settings p) ↔
          ((ChunkManager.worldToChunk m.settings p).x - (m.settings.renderDistance / 2 : ℕ) ≤ c.x ∧
           c.x ≤ (ChunkManager.worldToChunk m.settings p).x + (m.settings.renderDistance / 2 : ℕ) ∧
           (ChunkManager.worldToChunk m.settings p).z - (m.settings.renderDistance / 2 : ℕ) ≤ c.z ∧
           c.z ≤ (ChunkManager.worldToChunk m.settings p).z + (m.settings.renderDistance / 2 : ℕ))) ∧
    (ChunkManager.getRequiredChunks m.settings (ChunkManager.worldToChunk m.settings p)).length
        = (2 * (m.settings.renderDistance / 2) + 1) * (2 * (m.settings.renderDistance / 2) + 1) ∧
    (∀ c : ChunkCoordinate, c ∈ (ChunkManager.updatePlayerPosition m p).2.chunksToLoad ↔
        (c ∈ ChunkManager.getRequiredChunks m.settings (ChunkManager.worldToChunk m.settings p) ∧
         mapHas m.loadedChunks c = false)) ∧
    (∀ k : ChunkCoordinate, k ∈ (ChunkManager.updatePlayerPosition m p).2.chunksToUnload ↔
        (k ∈ m.loadedChunks.map Prod.fst ∧
         k ∉ ChunkManager.getRequiredChunks m.settings (ChunkManager.worldToChunk m.settings p))) := by
  refine ⟨fun c => mem_getRequiredChunks _ _ c, ?_, ?_, ?_⟩
  · unfold ChunkManager.getRequiredChunks
    exact grid_length _ _ _
  · intro c
    simp only [ChunkManager.updatePlayerPosition, List.mem_filter, Bool.not_eq_true']
  · intro k
    simp only [ChunkManager.updatePlayerPosition, List.mem_filter, decide_eq_true_eq]

/-- C3 counterexample: with renderDistance 4 and an empty resident table, the
required set loaded by updatePlayerPosition has 25 = 5*5 coordinates, not
4*4 = 16, so the required set is not an R x R square for even R. -/
theorem requiredChunks_even_renderDistance_counterexample :
    ((ChunkManager.updatePlayerPosition (ChunkManager.mk S0) posZero).2).chunksToLoad.length = 25 ∧
    ¬ ((ChunkManager.updatePlayerPosition (ChunkManager.mk S0) posZero).2).chunksToLoad.length
        = S0.renderDistance * S0.renderDistance := by
  have hpc : ChunkManager.worldToChunk S0 posZero = ⟨0, 0⟩ := by
    unfold ChunkManager.worldToChunk
    simp only [posZero, S0]
    norm_num
  have h : (ChunkManager.updatePlayerPosition (ChunkManager.mk S0) posZero).2.chunksToLoad
      = ChunkManager.getRequiredChunks S0 ⟨0, 0⟩ := by
    simp only [ChunkManager.updatePlayerPosition, ChunkManager.mk, hpc]
    simp [mapHas]
  have h25 : (ChunkManager.getRequiredChunks S0 ⟨0, 0⟩).length = 25 := by
    unfold ChunkManager.getRequiredChunks
    rw [grid_length]
    rfl
  rw [h, h25]
  exact ⟨rfl, by decide⟩

/-- The load pass only ever appends the same new coordinates to loadingChunks
and to the requested list. -/
theorem loadGo_append (terrain : List (ChunkCoordinate × TerrainData)) :
    ∀ (l L R : List ChunkCoordinate),
      ∃ S, loadGo terrain l (L, R) = (L ++ S, R ++ S) := by
  intro l
  induction l with
  | nil => intro L R; exact ⟨[], by simp [loadGo]⟩
  | cons c rest ih =>
    intro L R
    unfold loadGo
    by_cases h : ¬ mapHas terrain c ∧ ¬ (c ∈ L)
    · rw [if_pos h]
      obtain ⟨S, hS⟩ := ih (L ++ [c]) (R ++ [c])
      exact ⟨[c] ++ S, by rw [hS]; simp⟩
    · rw [if_neg h]
      exact ih L R

/-- Every coordinate in the requested list of the load pass was absent from the
terrain-data map, absent from the initial loadingChunks, and drawn from the
chunksToLoad list (unless it was requested before the pass began). -/
theorem loadGo_mem (terrain : List (ChunkCoordinate × TerrainData)) :
    ∀ (l L R : List ChunkCoordinate) (c : ChunkCoordinate),
      c ∈ (loadGo terrain l (L, R)).2 →
        c ∈ R ∨ (mapHas terrain c = false ∧ c ∉ L ∧ c ∈ l) := by
  intro l
  induction l with
  | nil => intro L R c h; exact Or.inl (by simpa [loadGo] using h)
  | cons a rest ih =>
    intro L R c h
    unfold loadGo at h
    by_cases ha : ¬ mapHas terrain a ∧ ¬ (a ∈ L)
    · rw [if_pos ha] at h
      rcases ih (L ++ [a]) (R ++ [a]) c h with hR | ⟨h1, h2, h3⟩
      · rcases List.mem_append.mp hR with hR | hc
        · exact Or.inl hR
        · have hc : c = a := by simpa using hc
          subst hc
          exact Or.inr ⟨Bool.not_eq_true _ ▸ (by simpa using ha.1), ha.2, List.mem_cons_self _ _⟩
      · refine Or.inr ⟨h1, fun hcl => h2 (List.mem_append.mpr (Or.inl hcl)), List.mem_cons_of_mem _ h3⟩
    · rw [if_neg ha] at h
      rcases ih L R c h with hR | ⟨h1, h2, h3⟩
      · exact Or.inl hR
      · exact Or.inr ⟨h1, h2, List.mem_cons_of_mem _ h3⟩

/-- A loading mark different from every unloaded key survives the unload
pass. -/
theorem unloadGo_loading_mem :
    ∀ (keys : List ChunkCoordinate) (s : CoordinatorState) (c : ChunkCoordinate),
      c ∈ s.loadingChunks → (∀ k ∈ keys, c ≠ k) →
        c ∈ (unloadGo keys s).loadingChunks := by
  intro keys
  induction keys with
  | nil => intro s c h _; exact h
  | cons k rest ih =>
    intro s c h hk
    unfold unloadGo
    apply ih
    · simp only [List.mem_filter, decide_eq_true_eq]
      exact ⟨h, hk k (List.mem_cons_self _ _)⟩
    · intro k' hk'
      exact hk k' (List.mem_cons_of_mem _ hk')

/-- Coordinates requested by a frame pass were neither resident in the
terrain-data map nor marked loading, and came from the frame's
chunksToLoad. -/
theorem frame_requested_spec (st : CoordinatorState) (pos : Vec3) (c : ChunkCoordinate) :
    c ∈ (frameStep st pos).2 →
      mapHas st.chunkTerrainData c = false ∧ c ∉ st.loadingChunks ∧
      c ∈ (ChunkManager.updatePlayerPosition st.manager pos).2.chunksToLoad := by
  intro h
  have h2 : c ∈ (loadPass st.chunkTerrainData
      (ChunkManager.updatePlayerPosition st.manager pos).2.chunksToLoad
      st.loadingChunks).2 := h
  unfold loadPass at h2
  rcases loadGo_mem st.chunkTerrainData _ st.loadingChunks [] c h2 with hR | ⟨h1, hL, hl⟩
  · exact absurd hR (List.not_mem_nil c)
  · exact ⟨h1, hL, hl⟩

/-- Coordinates requested by a frame pass are marked loading in the frame's
result state. -/
theorem frame_loading_after (st : CoordinatorState) (pos : Vec3) (c : ChunkCoordinate) :
    c ∈ (frameStep st pos).2 → c ∈ (frameStep st pos).1.loadingChunks := by
  intro h
  have hreq := frame_requested_spec st pos c h
  have hrequired : c ∈ ChunkManager.getRequiredChunks st.manager.settings
      (ChunkManager.worldToChunk st.manager.settings pos) := by
    have := hreq.2.2
    simp only [ChunkManager.updatePlayerPosition] at this
    exact List.mem_of_mem_filter this
  have h2 : c ∈ (loadPass st.chunkTerrainData
      (ChunkManager.updatePlayerPosition st.manager pos).2.chunksToLoad
      st.loadingChunks).2 := h
  show c ∈ (unloadPass _ _).loadingChunks
  unfold unloadPass
  apply unloadGo_loading_mem
  · obtain ⟨S, hS⟩ := loadGo_append st.chunkTerrainData
      (ChunkManager.updatePlayerPosition st.manager pos).2.chunksToLoad st.loadingChunks []
    show c ∈ (loadPass st.chunkTerrainData _ st.loadingChunks).1
    unfold loadPass
    rw [hS]
    unfold loadPass at h2
    rw [hS] at h2
    simp only [List.nil_append] at h2
    exact List.mem_append.mpr (Or.inr h2)
  · intro k hk
    have : ¬ k ∈ ChunkManager.getRequiredChunks st.manager.settings
        (ChunkManager.worldToChunk st.manager.settings pos) := by
      simp only [ChunkManager.updatePlayerPosition, List.mem_filter,
        decide_eq_true_eq] at hk
      exact hk.2
    intro hck
    subst hck
    exact this hrequired

/-- C5: the coordinator calls requestChunk for a coordinate only when that
coordinate is neither in the loading set nor present in the terrain-data map;
in particular a coordinate already marked loading is never requested, and
running the frame pass twice in a row at the same observer position never
requests the same coordinate twice. -/
theorem frameStep_no_duplicate_requests (st : CoordinatorState) (pos : Vec3)
    (c : ChunkCoordinate) :
    (c ∈ (frameStep st pos).2 →
        mapHas st.chunkTerrainData c = false ∧ c ∉ st.loadingChunks) ∧
    (c ∈ st.loadingChunks → c ∉ (frameStep st pos).2) ∧
    (c ∈ (frameStep st pos).2 → c ∉ (frameStep (frameStep st pos).1 pos).2) := by
  refine ⟨?_, ?_, ?_⟩
  · intro h
    exact ⟨(frame_requested_spec st pos c h).1, (frame_requested_spec st pos c h).2.1⟩
  · intro hc hmem
    exact (frame_requested_spec st pos c hmem).2.1 hc
  · intro h1 h2
    exact (frame_requested_spec _ pos c h2).2.1 (frame_loading_after st pos c h1)

/-- Witness for C5: with (0,0) already marked loading, the frame pass does not
request it. -/
theorem frameStep_no_duplicate_requests_witness :
    (⟨0, 0⟩ : ChunkCoordinate) ∉ (frameStep loadingState posZero).2 :=
  (frameStep_no_duplicate_requests loadingState posZero ⟨0, 0⟩).2.1
    (by simp [loadingState])

/-- The accumulated noise sum of the fractal loop is untouched by a
constant-zero noise function. -/
theorem fractalGo_fst_zero (x z p l : ℚ) :
    ∀ (n : ℕ) (v a s m : ℚ),
      (fractalGo (fun _ _ => 0) x z p l n v a s m).1 = v := by
  intro n
  induction n with
  | zero => intro v a s m; rfl
  | succ k ih =>
    intro v a s m
    simp only [fractalGo, zero_mul, add_zero]
    exact ih _ _ _ _

/-- fractal of the constant-zero noise function is zero. -/
theorem fractal_zero_noise (x z : ℚ) (oct : ℕ) (scale amp p l : ℚ) :
    WorldGenerator.fractal x z (fun _ _ => 0) oct scale amp p l = 0 := by
  simp only [WorldGenerator.fractal]
  rw [fractalGo_fst_zero]
  exact zero_div _

/-- Folding a function that never changes the accumulator is the identity. -/
theorem foldl_id {α β : Type} (f : α → β → α) (h : ∀ a b, f a b = a) :
    ∀ (l : List β) (a : α), l.foldl f a = a := by
  intro l
  induction l with
  | nil => intro a; rfl
  | cons b rest ih => intro a; rw [List.foldl_cons, h]; exact ih a

/-- seededRandom of the constant-zero sine is zero. -/
theorem seededRandom_const_zero (q : ℚ) : seededRandom constPrims.msin q = 0 := by
  simp [seededRandom, constPrims]

/-- Height of the constPrims / S6 generator: with all noise layers zero and
pow one, getHeightAt is the same value everywhere, and it exceeds
waterLevel + 3 = 3. -/
theorem constS6_height (x z : ℚ) :
    (WorldGenerator.init constPrims S6).getHeightAt x z = 135539 / 16807 := by
  simp only [WorldGenerator.getHeightAt, WorldGenerator.warp, WorldGenerator.ridged,
    WorldGenerator.billow, WorldGenerator.init, constPrims, S6, fractal_zero_noise]
  norm_num [smootherstep, max_def, min_def]

/-- The scatter loop is the filterMap of the per-candidate cube and ball
contributions. -/
theorem scatterGo_eq (g : WorldGenerator) (coordinate : ChunkCoordinate)
    (hmap : ℤ → ℤ → ℚ) :
    ∀ (l : List ℕ) (acc : List Cube × List Ball),
      l.foldl (fun acc i => scatterStep g coordinate hmap i acc) acc =
        (acc.1 ++ l.filterMap (cubeAt g coordinate hmap),
         acc.2 ++ l.filterMap (ballAt g coordinate hmap)) := by
  intro l
  induction l with
  | nil => intro acc; simp
  | cons i rest ih =>
    intro acc
    rw [List.foldl_cons, List.filterMap_cons, List.filterMap_cons, ih]
    simp only [scatterStep, cubeAt, ballAt]
    by_cases h1 : g.settings.waterLevel + 3 <
        hmap (scatterGrid g.settings.chunkSize g.settings.meshResolution
          (scatterCandidate g.prims.msin g.settings.chunkSize coordinate i)).1
          (scatterGrid g.settings.chunkSize g.settings.meshResolution
            (scatterCandidate g.prims.msin g.settings.chunkSize coordinate i)).2
    · by_cases h2 : (0.5 : ℚ) < seededRandom g.prims.msin
          ((scatterPrngSeed coordinate : ℚ) + i * 10 + 2)
      · rw [if_pos h1, if_pos h2, if_pos ⟨h1, h2⟩,
          if_neg (fun h => h.2.1 h2)]
        simp
      · by_cases h3 : (0.3 : ℚ) < seededRandom g.prims.msin
            ((scatterPrngSeed coordinate : ℚ) + i * 10 + 2)
        · rw [if_pos h1, if_neg h2, if_pos h3,
            if_neg (fun h => h2 h.2), if_pos ⟨h1, h2, h3⟩]
          simp
        · rw [if_pos h1, if_neg h2, if_neg h3,
            if_neg (fun h => h2 h.2), if_neg (fun h => h3 h.2.2)]
    · rw [if_neg h1, if_neg (fun h => h1 h.1), if_neg (fun h => h1 h.1)]

/-- C6 amended: generateChunk draws exactly 8 deterministic pseudo-random
candidates whose positions are derived from Math.sin, the chunk edge length
and a 32-bit hash of the chunk coordinate alone (scatterPrngSeed — independent
of settings.seed); a candidate whose terrain height is not above
waterLevel + 3 places nothing, and an accepted candidate places one cube if
the second draw exceeds 0.5, one ball if it lies in (0.3, 0.5], and — contrary
to the original claim — nothing at all if it is at most 0.3. -/
theorem WorldGenerator.scatter_characterization (g : WorldGenerator)
    (coordinate : ChunkCoordinate) :
    (g.generateChunk coordinate).cubes =
      (List.range 8).filterMap
        (cubeAt g coordinate (fun x z => g.heightAtLocal coordinate x z)) ∧
    (g.generateChunk coordinate).balls =
      (List.range 8).filterMap
        (ballAt g coordinate (fun x z => g.heightAtLocal coordinate x z)) := by
  have h := scatterGo_eq g coordinate (fun x z => g.heightAtLocal coordinate x z)
    (List.range 8) ([], [])
  constructor
  · show (scatterObjects g coordinate (fun x z => g.heightAtLocal coordinate x z)).1 = _
    unfold scatterObjects
    rw [h]
    simp
  · show (scatterObjects g coordinate (fun x z => g.heightAtLocal coordinate x z)).2 = _
    unfold scatterObjects
    rw [h]
    simp

/-- C6 counterexample: at constPrims / S6 every candidate of chunk (0,0) is
accepted (its terrain height 135539/16807 exceeds waterLevel + 3 = 3), yet the
second draw is 0, which is at most 0.3, so generateChunk places neither a cube
nor a ball for any accepted candidate — refuting the claim that every accepted
candidate is placed as exactly one of the two object kinds. -/
theorem scatter_accepted_candidate_unplaced_counterexample :
    S6.waterLevel + 3 < (WorldGenerator.init constPrims S6).heightAtLocal ⟨0, 0⟩
        (scatterGrid S6.chunkSize S6.meshResolution
          (scatterCandidate constPrims.msin S6.chunkSize ⟨0, 0⟩ 0)).1
        (scatterGrid S6.chunkSize S6.meshResolution
          (scatterCandidate constPrims.msin S6.chunkSize ⟨0, 0⟩ 0)).2 ∧
    ((WorldGenerator.init constPrims S6).generateChunk ⟨0, 0⟩).cubes = [] ∧
    ((WorldGenerator.init constPrims S6).generateChunk ⟨0, 0⟩).balls = [] := by
  have hheight : ∀ gx gz : ℤ,
      (WorldGenerator.init constPrims S6).heightAtLocal ⟨0, 0⟩ gx gz = 135539 / 16807 := by
    intro gx gz
    unfold WorldGenerator.heightAtLocal
    exact constS6_height _ _
  have hstep : ∀ (i : ℕ) (acc : List Cube × List Ball),
      scatterStep (WorldGenerator.init constPrims S6) ⟨0, 0⟩
        (fun x z => (WorldGenerator.init constPrims S6).heightAtLocal ⟨0, 0⟩ x z) i acc
        = acc := by
    intro i acc
    simp only [scatterStep, hheight]
    rw [if_pos (by norm_num [WorldGenerator.init, S6])]
    rw [show (WorldGenerator.init constPrims S6).prims.msin = constPrims.msin from rfl]
    rw [seededRandom_const_zero]
    rw [if_neg (by norm_num), if_neg (by norm_num)]
  have hfold : scatterObjects (WorldGenerator.init constPrims S6) ⟨0, 0⟩
      (fun x z => (WorldGenerator.init constPrims S6).heightAtLocal ⟨0, 0⟩ x z) = ([], []) := by
    unfold scatterObjects
    exact foldl_id _ (fun a b => hstep b a) _ _
  refine ⟨?_, ?_, ?_⟩
  · rw [hheight]
    norm_num [S6]
  · show (scatterObjects (WorldGenerator.init constPrims S6) ⟨0, 0⟩
      (fun x z => (WorldGenerator.init constPrims S6).heightAtLocal ⟨0, 0⟩ x z)).1 = []
    rw [hfold]
  · show (scatterObjects (WorldGenerator.init constPrims S6) ⟨0, 0⟩
      (fun x z => (WorldGenerator.init constPrims S6).heightAtLocal ⟨0, 0⟩ x z)).2 = []
    rw [hfold]

/-- Invariant of the fractal loop: with noise bounded by 1 and positive
persistence, the accumulated value is bounded in absolute value by the
accumulated amplitude, provided amplitude and accumulator share a sign. -/
theorem fractalGo_abs_le (f : ℚ → ℚ → ℚ) (x z p l : ℚ)
    (hf : ∀ a b, |f a b| ≤ 1) (hp : 0 < p) :
    ∀ (n : ℕ) (v a s m : ℚ), |v| ≤ |m| →
      (0 ≤ a ∧ 0 ≤ m ∨ a ≤ 0 ∧ m ≤ 0) →
      |(fractalGo f x z p l n v a s m).1| ≤ |(fractalGo f x z p l n v a s m).2| := by
  intro n
  induction n with
  | zero => intro v a s m hvm _; simpa [fractalGo] using hvm
  | succ k ih =>
    intro v a s m hvm hsign
    simp only [fractalGo]
    apply ih
    · have hfa : |f (x * s) (z * s) * a| ≤ |a| := by
        rw [abs_mul]
        calc |f (x * s) (z * s)| * |a| ≤ 1 * |a| :=
              mul_le_mul_of_nonneg_right (hf _ _) (abs_nonneg a)
          _ = |a| := one_mul _
      have habs : |m + a| = |m| + |a| := by
        rcases hsign with ⟨ha, hm⟩ | ⟨ha, hm⟩
        · rw [abs_of_nonneg hm, abs_of_nonneg ha, abs_of_nonneg (add_nonneg hm ha)]
        · rw [abs_of_nonpos hm, abs_of_nonpos ha, abs_of_nonpos (add_nonpos hm ha)]
          ring
      calc |v + f (x * s) (z * s) * a| ≤ |v| + |f (x * s) (z * s) * a| := abs_add _ _
        _ ≤ |m| + |a| := add_le_add hvm hfa
        _ = |m + a| := habs.symm
    · rcases hsign with ⟨ha, hm⟩ | ⟨ha, hm⟩
      · exact Or.inl ⟨mul_nonneg ha hp.le, add_nonneg hm ha⟩
      · refine Or.inr ⟨?_, add_nonpos hm ha⟩
        nlinarith
/-- A fractal of noise bounded by 1 (with positive persistence) is itself
bounded by 1 in absolute value, whatever the amplitude parameter: the
amplitude cancels in the normalization. -/
theorem abs_fractal_le_one (x z : ℚ) (f : ℚ → ℚ → ℚ)
    (hf : ∀ a b, |f a b| ≤ 1) (oct : ℕ) (scale amp p l : ℚ) (hp : 0 < p) :
    |WorldGenerator.fractal x z f oct scale amp p l| ≤ 1 := by
  have hsign : (0 ≤ amp ∧ (0 : ℚ) ≤ 0 ∨ amp ≤ 0 ∧ (0 : ℚ) ≤ 0) := by
    rcases le_total 0 amp with h | h
    · exact Or.inl ⟨h, le_refl 0⟩
    · exact Or.inr ⟨h, le_refl 0⟩
  have hsign' : (0 ≤ amp ∧ (0 : ℚ) ≤ 0 ∨ amp ≤ 0 ∧ (0 : ℚ) ≤ 0) → True := fun _ => trivial
  have h := fractalGo_abs_le f x z p l hf hp oct 0 amp scale 0 (by simp)
    (by rcases le_total 0 amp with h | h
        · exact Or.inl ⟨h, le_refl 0⟩
        · exact Or.inr ⟨h, le_refl 0⟩)
  simp only [WorldGenerator.fractal]
  by_cases hm : (fractalGo f x z p l oct 0 amp scale 0).2 = 0
  · rw [hm, div_zero]
    norm_num
  · rw [abs_div]
    exact (div_le_one (abs_pos.mpr hm)).mpr h

/-- The accumulated (value, maxValue) pair of the fractal loop on a constant
noise function satisfies value - v0 = c * (maxValue - m0). -/
theorem fractalGo_const (c x z p l : ℚ) :
    ∀ (n : ℕ) (v a s m : ℚ),
      (fractalGo (fun _ _ => c) x z p l n v a s m).1 - v =
        c * ((fractalGo (fun _ _ => c) x z p l n v a s m).2 - m) := by
  intro n
  induction n with
  | zero => intro v a s m; simp [fractalGo]
  | succ k ih =>
    intro v a s m
    simp only [fractalGo]
    have h := ih (v + c * a) (a * p) (s * l) (m + a)
    linarith

/-- The accumulated amplitude of the fractal loop stays positive when the
persistence, the current amplitude and the accumulator are positive. -/
theorem fractalGo_snd_pos (f : ℚ → ℚ → ℚ) (x z p l : ℚ) (hp : 0 < p) :
    ∀ (n : ℕ) (v a s m : ℚ), 0 < a → 0 < m →
      0 < (fractalGo f x z p l n v a s m).2 := by
  intro n
  induction n with
  | zero => intro v a s m _ hm; simpa [fractalGo] using hm
  | succ k ih =>
    intro v a s m ha hm
    simp only [fractalGo]
    exact ih _ _ _ _ (mul_pos ha hp) (by linarith)

/-- fractal of a constant noise function c is exactly c for at least one
octave, a positive amplitude and positive persistence. -/
theorem fractal_const_noise (c x z : ℚ) (oct : ℕ) (hoct : 0 < oct)
    (scale amp p l : ℚ) (hamp : 0 < amp) (hp : 0 < p) :
    WorldGenerator.fractal x z (fun _ _ => c) oct scale amp p l = c := by
  obtain ⟨k, rfl⟩ : ∃ k, oct = k + 1 := ⟨oct - 1, by omega⟩
  have hpos : 0 < (fractalGo (fun _ _ => c) x z p l (k + 1) 0 amp scale 0).2 := by
    simp only [fractalGo]
    exact fractalGo_snd_pos _ x z p l hp k _ _ _ _ (mul_pos hamp hp) (by linarith)
  have hrel := fractalGo_const c x z p l (k + 1) 0 amp scale 0
  simp only [WorldGenerator.fractal]
  rw [show (fractalGo (fun _ _ => c) x z p l (k + 1) 0 amp scale 0).1 =
    c * (fractalGo (fun _ _ => c) x z p l (k + 1) 0 amp scale 0).2 from by linarith]
  rw [mul_div_assoc, div_self hpos.ne', mul_one]

/-- smootherstep is nonnegative. -/
theorem smootherstep_nonneg (a b t : ℚ) : 0 ≤ smootherstep a b t := by
  simp only [smootherstep]
  set x := max 0 (min 1 ((t - a) / (b - a))) with hx
  have h0 : 0 ≤ x := le_max_left _ _
  have hq : 0 ≤ 6 * x * x - 15 * x + 10 := by nlinarith [sq_nonneg (2 * x - 5/2)]
  nlinarith [mul_nonneg (mul_nonneg (mul_nonneg h0 h0) h0) hq]

/-- smootherstep is at most one. -/
theorem smootherstep_le_one (a b t : ℚ) : smootherstep a b t ≤ 1 := by
  simp only [smootherstep]
  set x := max 0 (min 1 ((t - a) / (b - a))) with hx
  have h0 : 0 ≤ x := le_max_left _ _
  have h1 : x ≤ 1 := max_le (by norm_num) (min_le_left _ _)
  have hcube : 0 ≤ (1 - x) * (1 - x) * (1 - x) := by nlinarith
  have hquad : 0 ≤ 6 * x * x + 3 * x + 1 := by nlinarith
  nlinarith [mul_nonneg hcube hquad]

/-- ridged noise with admissible pow and noise bounded by 1 is bounded by the
amplitude in absolute value, for sharpness at least 1. -/
theorem abs_ridged_le (g : WorldGenerator) (hadm : g.prims.Admissible)
    (x z : ℚ) (f : ℚ → ℚ → ℚ) (hf : ∀ a b, |f a b| ≤ 1)
    (scale amp sharp : ℚ) (hsharp : 1 ≤ sharp) :
    |g.ridged x z f scale amp sharp| ≤ |amp| := by
  unfold WorldGenerator.ridged
  have hn := hf (x * scale) (z * scale)
  have hb0 : 0 ≤ 1 - |f (x * scale) (z * scale)| := by linarith
  have hb1 : 1 - |f (x * scale) (z * scale)| ≤ 1 := by
    have := abs_nonneg (f (x * scale) (z * scale))
    linarith
  obtain ⟨hp0, hp1⟩ := hadm.pow_unit _ sharp hb0 hb1 hsharp
  rw [abs_mul, abs_of_nonneg hp0]
  calc g.prims.mpow (1 - |f (x * scale) (z * scale)|) sharp * |amp|
      ≤ 1 * |amp| := mul_le_mul_of_nonneg_right hp1 (abs_nonneg amp)
    _ = |amp| := one_mul _

/-- billowed noise with noise bounded by 1 is bounded by the amplitude in
absolute value. -/
theorem abs_billow_le (x z : ℚ) (f : ℚ → ℚ → ℚ) (hf : ∀ a b, |f a b| ≤ 1)
    (scale amp : ℚ) :
    |WorldGenerator.billow x z f scale amp| ≤ |amp| := by
  unfold WorldGenerator.billow
  rw [abs_mul, abs_abs]
  calc |f (x * scale) (z * scale)| * |amp| ≤ 1 * |amp| :=
        mul_le_mul_of_nonneg_right (hf _ _) (abs_nonneg amp)
    _ = |amp| := one_mul _

/-- A term bounded by b in absolute value stays bounded by b after
multiplication by a mask in [0, 1]. -/
theorem abs_mul_mask_le (c m b : ℚ) (hc : |c| ≤ b) (hm0 : 0 ≤ m) (hm1 : m ≤ 1) :
    |c * m| ≤ b := by
  rw [abs_mul, abs_of_nonneg hm0]
  have hb0 : 0 ≤ b := le_trans (abs_nonneg c) hc
  nlinarith [abs_nonneg c]

set_option maxHeartbeats 2000000 in
/-- C8 amended: for admissible primitives (noise in [-1,1], Math.pow mapping
[0,1] with exponent >= 1 into [0,1]), getHeightAt always returns a (finite)
rational whose distance from waterLevel is at most 6*|mountainAmplitude| + 95.
The configured continent/detail amplitudes do not appear in the bound: the
fractal normalization divides them out, and the remaining layers carry
hard-coded amplitudes, so the original "waterLevel plus or minus the sum of
configured amplitudes" envelope does not hold. -/
theorem WorldGenerator.getHeightAt_bounded (P : NoisePrims) (hP : P.Admissible)
    (s : WorldGenerationSettings) (x z : ℚ) :
    |(WorldGenerator.init P s).getHeightAt x z - s.waterLevel| ≤
      6 * |s.mountainAmplitude| + 95 := by
  have hnb : ∀ (nm : String) (a b : ℚ), |P.noise2D nm a b| ≤ 1 := hP.noise_bounded
  unfold WorldGenerator.getHeightAt
  lift_lets
  extract_lets w wx wz continentScale continentAmp continent underwaterBase
    underwaterRidges underwaterDetail underwaterCanyons combinedUnderwater
    underwaterMask underwaterTerrain mountainScale mountainAmp primaryMountains
    secondaryRidges tertiaryRidges erosion microErosion combinedMountains
    mountainMask distanceFromWater coastalFlattening plainsBase gentleUndulation
    plainsLayer valleyBase riverValleys combinedValleys valleyMask largeHills
    mediumHills rollingHills combinedHills hillMask smoothingLayer detailScale
    detailAmp surfaceDetails microDetails plateauBase plateauMask plateaus
  rw [show (WorldGenerator.init P s).settings.waterLevel = s.waterLevel from rfl]
  rw [show s.waterLevel + continent + underwaterTerrain + coastalFlattening
      + combinedMountains * mountainMask + combinedValleys * valleyMask
      + combinedHills * hillMask + plainsLayer + plateaus + smoothingLayer
      + surfaceDetails + microDetails - s.waterLevel
      = continent + underwaterTerrain + coastalFlattening
      + combinedMountains * mountainMask + combinedValleys * valleyMask
      + combinedHills * hillMask + plainsLayer + plateaus + smoothingLayer
      + surfaceDetails + microDetails from by ring]
  -- individual layer bounds
  have h1 : |continent| ≤ 1 :=
    abs_fractal_le_one wx wz ((WorldGenerator.init P s).continentNoise)
      (fun a b => hnb _ a b) 6 continentScale continentAmp 0.55 2.2 (by norm_num)
  have hub : |underwaterBase| ≤ 1 :=
    abs_fractal_le_one wx wz ((WorldGenerator.init P s).underwaterNoise)
      (fun a b => hnb _ a b) 5 0.003 (-35) 0.6 2.1 (by norm_num)
  have hur : |underwaterRidges| ≤ |(-20 : ℚ)| :=
    abs_ridged_le (WorldGenerator.init P s) hP wx wz
      ((WorldGenerator.init P s).underwaterNoise) (fun a b => hnb _ a b)
      0.008 (-20) 1.2 (by norm_num)
  have hud : |underwaterDetail| ≤ 1 :=
    abs_fractal_le_one wx wz ((WorldGenerator.init P s).detailNoise)
      (fun a b => hnb _ a b) 4 0.025 (-12) 0.5 2.0 (by norm_num)
  have huc : |underwaterCanyons| ≤ |(-25 : ℚ)| :=
    abs_billow_le wx wz ((WorldGenerator.init P s).valleyNoise)
      (fun a b => hnb _ a b) 0.004 (-25)
  norm_num at hur huc
  have hcu : |combinedUnderwater| ≤ 47 := by
    have t1 : |underwaterBase + underwaterRidges + underwaterDetail + underwaterCanyons|
        ≤ |underwaterBase + underwaterRidges + underwaterDetail| + |underwaterCanyons| :=
      abs_add _ _
    have t2 : |underwaterBase + underwaterRidges + underwaterDetail|
        ≤ |underwaterBase + underwaterRidges| + |underwaterDetail| := abs_add _ _
    have t3 : |underwaterBase + underwaterRidges| ≤ |underwaterBase| + |underwaterRidges| :=
      abs_add _ _
    show |underwaterBase + underwaterRidges + underwaterDetail + underwaterCanyons| ≤ 47
    linarith
  have h2 : |underwaterTerrain| ≤ 47 := by
    show |combinedUnderwater * underwaterMask| ≤ 47
    exact abs_mul_mask_le _ _ _ hcu (smootherstep_nonneg _ _ _) (smootherstep_le_one _ _ _)
  have h3 : |coastalFlattening| ≤ 6 := by
    show |smootherstep 0.4 0 distanceFromWater * (-6)| ≤ 6
    rw [abs_mul, abs_of_nonneg (smootherstep_nonneg _ _ _),
      show |(-6 : ℚ)| = 6 from by norm_num]
    nlinarith [smootherstep_le_one 0.4 0 distanceFromWater,
      smootherstep_nonneg 0.4 0 distanceFromWater]
  have hAmp : |mountainAmp| = 3 * |s.mountainAmplitude| := by
    rw [show mountainAmp = s.mountainAmplitude * 3.0 from rfl, abs_mul]
    norm_num
    ring
  have hpm : |primaryMountains| ≤ |mountainAmp| :=
    abs_ridged_le (WorldGenerator.init P s) hP wx wz
      ((WorldGenerator.init P s).mountainNoise) (fun a b => hnb _ a b)
      mountainScale mountainAmp 2.0 (by norm_num)
  have hsr : |secondaryRidges| ≤ |mountainAmp| * 0.4 := by
    have h := abs_ridged_le (WorldGenerator.init P s) hP (wx + 100) (wz + 50)
      ((WorldGenerator.init P s).ridgeNoise) (fun a b => hnb _ a b)
      (mountainScale * 1.3) (mountainAmp * 0.4) 1.6 (by norm_num)
    rw [abs_mul, show |(0.4 : ℚ)| = 0.4 from by norm_num] at h
    exact h
  have htr : |tertiaryRidges| ≤ |mountainAmp| * 0.6 := by
    have h := abs_ridged_le (WorldGenerator.init P s) hP (wx - 50) (wz + 150)
      ((WorldGenerator.init P s).mountainNoise) (fun a b => hnb _ a b)
      (mountainScale * 0.7) (mountainAmp * 0.6) 1.4 (by norm_num)
    rw [abs_mul, show |(0.6 : ℚ)| = 0.6 from by norm_num] at h
    exact h
  have her : |erosion| ≤ 1 :=
    abs_fractal_le_one wx wz ((WorldGenerator.init P s).erosionNoise)
      (fun a b => hnb _ a b) 5 (mountainScale * 4) 18 0.45 2.1 (by norm_num)
  have hmi : |microErosion| ≤ 1 :=
    abs_fractal_le_one wx wz ((WorldGenerator.init P s).detailNoise)
      (fun a b => hnb _ a b) 3 (mountainScale * 8) 8 0.35 2.5 (by norm_num)
  have hcm : |combinedMountains| ≤ 6 * |s.mountainAmplitude| + 2 := by
    show |primaryMountains + secondaryRidges + tertiaryRidges - erosion - microErosion|
      ≤ 6 * |s.mountainAmplitude| + 2
    rw [sub_eq_add_neg, sub_eq_add_neg]
    have t1 : |primaryMountains + secondaryRidges + tertiaryRidges + -erosion + -microErosion|
        ≤ |primaryMountains + secondaryRidges + tertiaryRidges + -erosion| + |-microErosion| :=
      abs_add _ _
    have t2 : |primaryMountains + secondaryRidges + tertiaryRidges + -erosion|
        ≤ |primaryMountains + secondaryRidges + tertiaryRidges| + |-erosion| := abs_add _ _
    have t3 : |primaryMountains + secondaryRidges + tertiaryRidges|
        ≤ |primaryMountains + secondaryRidges| + |tertiaryRidges| := abs_add _ _
    have t4 : |primaryMountains + secondaryRidges| ≤ |primaryMountains| + |secondaryRidges| :=
      abs_add _ _
    rw [abs_neg] at t1 t2
    linarith
  have h4 : |combinedMountains * mountainMask| ≤ 6 * |s.mountainAmplitude| + 2 :=
    abs_mul_mask_le _ _ _ hcm (smootherstep_nonneg _ _ _) (smootherstep_le_one _ _ _)
  have hvb : |valleyBase| ≤ |(-18 : ℚ)| :=
    abs_billow_le wx wz ((WorldGenerator.init P s).valleyNoise)
      (fun a b => hnb _ a b) 0.006 (-18)
  have hrv : |riverValleys| ≤ |(-12 : ℚ)| :=
    abs_billow_le (wx + 200) (wz - 100) ((WorldGenerator.init P s).valleyNoise)
      (fun a b => hnb _ a b) 0.015 (-12)
  norm_num at hvb hrv
  have hcv : |combinedValleys| ≤ 30 := by
    show |valleyBase + riverValleys| ≤ 30
    have := abs_add valleyBase riverValleys
    linarith
  have h5 : |combinedValleys * valleyMask| ≤ 30 := by
    refine abs_mul_mask_le _ _ _ hcv ?_ ?_
    · exact mul_nonneg (smootherstep_nonneg _ _ _) (smootherstep_nonneg _ _ _)
    · show smootherstep (-0.2) 0.4 continent
          * smootherstep 0 15 |combinedMountains * mountainMask| ≤ 1
      nlinarith [smootherstep_nonneg (-0.2) 0.4 continent,
        smootherstep_le_one (-0.2) 0.4 continent,
        smootherstep_nonneg 0 15 |combinedMountains * mountainMask|,
        smootherstep_le_one 0 15 |combinedMountains * mountainMask|]
  have hlh : |largeHills| ≤ 1 :=
    abs_fractal_le_one wx wz ((WorldGenerator.init P s).hillNoise)
      (fun a b => hnb _ a b) 4 0.006 25 0.5 2.1 (by norm_num)
  have hmh : |mediumHills| ≤ 1 :=
    abs_fractal_le_one (wx + 75) (wz - 25) ((WorldGenerator.init P s).hillNoise)
      (fun a b => hnb _ a b) 3 0.012 15 0.6 2.0 (by norm_num)
  have hrh : |rollingHills| ≤ 1 :=
    abs_fractal_le_one (wx - 30) (wz + 80) ((WorldGenerator.init P s).detailNoise)
      (fun a b => hnb _ a b) 2 0.025 8 0.5 2.2 (by norm_num)
  have hch : |combinedHills| ≤ 3 := by
    show |largeHills + mediumHills + rollingHills| ≤ 3
    have t1 := abs_add (largeHills + mediumHills) rollingHills
    have t2 := abs_add largeHills mediumHills
    linarith
  have h6 : |combinedHills * hillMask| ≤ 3 :=
    abs_mul_mask_le _ _ _ hch (smootherstep_nonneg _ _ _) (smootherstep_le_one _ _ _)
  have hpb : |plainsBase| ≤ 1 :=
    abs_fractal_le_one wx wz ((WorldGenerator.init P s).plainsNoise)
      (fun a b => hnb _ a b) 4 0.004 8 0.6 2.0 (by norm_num)
  have hgu : |gentleUndulation| ≤ 1 :=
    abs_fractal_le_one wx wz ((WorldGenerator.init P s).gentleNoise)
      (fun a b => hnb _ a b) 3 0.008 4 0.5 2.2 (by norm_num)
  have h7 : |plainsLayer| ≤ 9/5 := by
    show |(plainsBase + gentleUndulation) * 0.9| ≤ 9/5
    rw [abs_mul, show |(0.9 : ℚ)| = 0.9 from by norm_num]
    have := abs_add plainsBase gentleUndulation
    nlinarith [abs_nonneg (plainsBase + gentleUndulation)]
  have hplb : |plateauBase| ≤ 1 :=
    abs_fractal_le_one wx wz ((WorldGenerator.init P s).continentNoise)
      (fun a b => hnb _ a b) 3 0.004 18 0.7 2.0 (by norm_num)
  have h8 : |plateaus| ≤ 1 := by
    show |max 0 plateauBase * plateauMask| ≤ 1
    rw [abs_mul, abs_of_nonneg (le_max_left 0 plateauBase)]
    have hm1 : max 0 plateauBase ≤ 1 :=
      max_le (by norm_num) (le_trans (le_abs_self _) hplb)
    have hm0 : (0 : ℚ) ≤ max 0 plateauBase := le_max_left _ _
    rw [abs_of_nonneg (smootherstep_nonneg 0.3 0.7 continent)]
    nlinarith [smootherstep_nonneg 0.3 0.7 continent,
      smootherstep_le_one 0.3 0.7 continent]
  have h9 : |smoothingLayer| ≤ 1 :=
    abs_fractal_le_one wx wz ((WorldGenerator.init P s).gentleNoise)
      (fun a b => hnb _ a b) 6 0.02 3.5 0.4 2.1 (by norm_num)
  have h10 : |surfaceDetails| ≤ 1 :=
    abs_fractal_le_one wx wz ((WorldGenerator.init P s).detailNoise)
      (fun a b => hnb _ a b) 5 detailScale detailAmp 0.45 2.4 (by norm_num)
  have h11 : |microDetails| ≤ 1 :=
    abs_fractal_le_one wx wz ((WorldGenerator.init P s).detailNoise)
      (fun a b => hnb _ a b) 3 (detailScale * 3) (detailAmp * 0.3) 0.4 2.6 (by norm_num)
  -- triangle inequality over the eleven layers
  have a1 := abs_add continent underwaterTerrain
  have a2 := abs_add (continent + underwaterTerrain) coastalFlattening
  have a3 := abs_add (continent + underwaterTerrain + coastalFlattening)
    (combinedMountains * mountainMask)
  have a4 := abs_add (continent + underwaterTerrain + coastalFlattening
    + combinedMountains * mountainMask) (combinedValleys * valleyMask)
  have a5 := abs_add (continent + underwaterTerrain + coastalFlattening
    + combinedMountains * mountainMask + combinedValleys * valleyMask)
    (combinedHills * hillMask)
  have a6 := abs_add (continent + underwaterTerrain + coastalFlattening
    + combinedMountains * mountainMask + combinedValleys * valleyMask
    + combinedHills * hillMask) plainsLayer
  have a7 := abs_add (continent + underwaterTerrain + coastalFlattening
    + combinedMountains * mountainMask + combinedValleys * valleyMask
    + combinedHills * hillMask + plainsLayer) plateaus
  have a8 := abs_add (continent + underwaterTerrain + coastalFlattening
    + combinedMountains * mountainMask + combinedValleys * valleyMask
    + combinedHills * hillMask + plainsLayer + plateaus) smoothingLayer
  have a9 := abs_add (continent + underwaterTerrain + coastalFlattening
    + combinedMountains * mountainMask + combinedValleys * valleyMask
    + combinedHills * hillMask + plainsLayer + plateaus + smoothingLayer)
    surfaceDetails
  have a10 := abs_add (continent + underwaterTerrain + coastalFlattening
    + combinedMountains * mountainMask + combinedValleys * valleyMask
    + combinedHills * hillMask + plainsLayer + plateaus + smoothingLayer
    + surfaceDetails) microDetails
  linarith

/-- constPrims satisfies the admissibility facts of the real primitives. -/
theorem constPrims_admissible : constPrims.Admissible := by
  constructor
  · intro nm a b
    simp [constPrims]
  · intro b e _ _ _
    refine ⟨?_, ?_⟩ <;> simp [constPrims]

/-- Witness for C8's amended bound at concrete admissible primitives. -/
theorem getHeightAt_bounded_witness :
    |(WorldGenerator.init constPrims S6).getHeightAt 0 0 - S6.waterLevel| ≤
      6 * |S6.mountainAmplitude| + 95 :=
  WorldGenerator.getHeightAt_bounded constPrims constPrims_admissible S6 0 0

/-- contPrims satisfies the admissibility facts of the real primitives. -/
theorem contPrims_admissible : contPrims.Admissible := by
  constructor
  · intro nm a b
    simp only [contPrims]
    split <;> norm_num
  · intro b e _ _ _
    refine ⟨?_, ?_⟩ <;> simp [contPrims]

set_option maxHeartbeats 2000000 in
/-- Height of the contPrims / S8 generator: the continent layer reads 1 and
every other layer 0, pow is 1, so getHeightAt is waterLevel + continent (1) +
plateaus (1) + the three ridged mountain lines (6 * mountainAmplitude) = 602
everywhere. -/
theorem contS8_height (x z : ℚ) :
    (WorldGenerator.init contPrims S8).getHeightAt x z = 602 := by
  have hsets : (WorldGenerator.init contPrims S8).settings = S8 := rfl
  have hpow : (WorldGenerator.init contPrims S8).prims.mpow = fun _ _ => (1 : ℚ) := rfl
  have hzero : ∀ nm : String, nm ≠ "_continent" →
      (fun a b => contPrims.noise2D nm a b) = fun _ _ => (0 : ℚ) := by
    intro nm hnm
    funext a b
    simp [contPrims, hnm]
  have hc : (WorldGenerator.init contPrims S8).continentNoise = fun _ _ => (1 : ℚ) := by
    funext a b
    show (if ("" ++ "_continent" : String) = "_continent" then (1 : ℚ) else 0) = 1
    have hs : ("" ++ "_continent" : String) = "_continent" := rfl
    rw [if_pos hs]
  have hm : (WorldGenerator.init contPrims S8).mountainNoise = fun _ _ => (0 : ℚ) :=
    hzero ("" ++ "_mountain") (by decide)
  have hh : (WorldGenerator.init contPrims S8).hillNoise = fun _ _ => (0 : ℚ) :=
    hzero ("" ++ "_hill") (by decide)
  have hd : (WorldGenerator.init contPrims S8).detailNoise = fun _ _ => (0 : ℚ) :=
    hzero ("" ++ "_detail") (by decide)
  have hwx : (WorldGenerator.init contPrims S8).warpNoiseX = fun _ _ => (0 : ℚ) :=
    hzero ("" ++ "_warpX") (by decide)
  have hwz : (WorldGenerator.init contPrims S8).warpNoiseZ = fun _ _ => (0 : ℚ) :=
    hzero ("" ++ "_warpZ") (by decide)
  have hr : (WorldGenerator.init contPrims S8).ridgeNoise = fun _ _ => (0 : ℚ) :=
    hzero ("" ++ "_ridge") (by decide)
  have hv : (WorldGenerator.init contPrims S8).valleyNoise = fun _ _ => (0 : ℚ) :=
    hzero ("" ++ "_valley") (by decide)
  have he : (WorldGenerator.init contPrims S8).erosionNoise = fun _ _ => (0 : ℚ) :=
    hzero ("" ++ "_erosion") (by decide)
  have hu : (WorldGenerator.init contPrims S8).underwaterNoise = fun _ _ => (0 : ℚ) :=
    hzero ("" ++ "_underwater") (by decide)
  have hp2 : (WorldGenerator.init contPrims S8).plainsNoise = fun _ _ => (0 : ℚ) :=
    hzero ("" ++ "_plains") (by decide)
  have hg : (WorldGenerator.init contPrims S8).gentleNoise = fun _ _ => (0 : ℚ) :=
    hzero ("" ++ "_gentle") (by decide)
  have hfcont : WorldGenerator.fractal x z (fun _ _ => (1 : ℚ)) 6 S8.continentScale
      (S8.continentAmplitude * 1.5) 0.55 2.2 = 1 :=
    fractal_const_noise 1 x z 6 (by norm_num) _ _ 0.55 2.2
      (by norm_num [S8]) (by norm_num)
  have hfplat : WorldGenerator.fractal x z (fun _ _ => (1 : ℚ)) 3 0.004 18 0.7 2.0 = 1 :=
    fractal_const_noise 1 x z 3 (by norm_num) _ _ 0.7 2.0 (by norm_num) (by norm_num)
  simp only [WorldGenerator.getHeightAt, WorldGenerator.warp, WorldGenerator.ridged,
    WorldGenerator.billow, hsets, hc, hm, hh, hd, hwx, hwz, hr, hv, he, hu, hp2, hg,
    hpow, fractal_zero_noise, abs_zero, zero_mul, mul_zero, add_zero, zero_add,
    sub_zero, one_mul]
  rw [hfcont, hfplat]
  norm_num [smootherstep, max_def, min_def, S8]

/-- C8 counterexample: with the admissible primitives contPrims (noise values
in {0, 1}, pow constant 1) and settings S8, getHeightAt returns
waterLevel + 602, which leaves the claimed envelope of waterLevel plus or
minus the sum of the configured amplitude parameters (here at most
1 + 100 + 1 + 1 = 103): the mountain layers alone contribute
6 * mountainAmplitude = 600. -/
theorem getHeightAt_amplitude_sum_counterexample :
    contPrims.Admissible ∧
    ¬ |(WorldGenerator.init contPrims S8).getHeightAt 0 0 - S8.waterLevel| ≤
        S8.continentAmplitude + S8.mountainAmplitude + S8.detailAmplitude
          + S8.warpStrength := by
  refine ⟨contPrims_admissible, ?_⟩
  rw [contS8_height 0 0]
  norm_num [S8]
